import Mathlib

/-!
Shallow embedding of the jaba interpreter (github.com/maxwellgithinji/jaba):
token model, lexer, Pratt parser, object model, environments and the
tree-walking evaluator, translated from the Go sources under src/, together
with theorems settling the frozen claims C1 to C10.

Conventions of the embedding:
- Go `int64` arithmetic is modelled as `Int` with an explicit two's-complement
  wrap (`wrap64`) applied exactly where the Go code performs an `int64`
  operation.
- Go run-time panics (integer divide by zero, index out of range, method
  calls on nil interface values, failed type assertions) are modelled by the
  `GoPanic` type; Go functions that cannot panic stay pure.
- A Go interface value that may be nil is modelled as an `Option`.
- Mutable `*object.Environment` values are modelled by a store of frames
  indexed by `Nat` references; `object.Environment` pointers become indices.
- Recursion through function values cannot be structural, so the evaluator
  and the parser carry a fuel parameter; `Res.timeout` marks exhaustion and
  never corresponds to any Go behaviour.
-/

namespace Jaba

/-- TokenType from src/pkg/token/token.go: the constants declared there
(the file declares no STRING, LBRACKET, RBRACKET or COLON constant), plus
STRING, which src/pkg/lexer/lexer.go references and which token.go of this
snapshot is missing; STRING is modelled from the spec token list. -/
inductive TokenType where
  | ILLEGAL
  | EOF
  | IDENTIFIER
  | INTEGER
  | ASSIGN
  | PLUS
  | MINUS
  | NOPE
  | ASTERISK
  | SLASH
  | LT
  | GT
  | EQ
  | NEQ
  | COMMA
  | SEMICOLON
  | LPAREN
  | RPAREN
  | LBRACE
  | RBRACE
  | FUNCTION
  | LET
  | TRUE
  | FALSE
  | IF
  | ELSE
  | RETURN
  | STRING
deriving DecidableEq

/-- The Go string value of each TokenType constant of token.go
(token.TokenType is a string type; %v and %s of a token type print this). -/
def tokenTypeString : TokenType → String
  | .ILLEGAL => ("ILLEGAL")
  | .EOF => ("EOF")
  | .IDENTIFIER => ("IDENTIFIER")
  | .INTEGER => ("INTEGER")
  | .ASSIGN => ("=")
  | .PLUS => ("+")
  | .MINUS => ("-")
  | .NOPE => ("!")
  | .ASTERISK => ("*")
  | .SLASH => ("/")
  | .LT => ("<")
  | .GT => (">")
  | .EQ => ("==")
  | .NEQ => ("!=")
  | .COMMA => (",")
  | .SEMICOLON => (";")
  | .LPAREN => ("(")
  | .RPAREN => (")")
  | .LBRACE => ("\x7b")
  | .RBRACE => ("\x7d")
  | .FUNCTION => ("FUNCTION")
  | .LET => ("LET")
  | .TRUE => ("TRUE")
  | .FALSE => ("FALSE")
  | .IF => ("IF")
  | .ELSE => ("ELSE")
  | .RETURN => ("RETURN")
  | .STRING => ("STRING")

/-- Token from src/pkg/token/token.go: a token type plus its literal text. -/
structure Token where
  ttype : TokenType
  literal : String
deriving DecidableEq

/-- keywords map of token.go. -/
def keywords : String → Option TokenType
  | "fn" => some (.FUNCTION)
  | "let" => some (.LET)
  | "true" => some (.TRUE)
  | "false" => some (.FALSE)
  | "if" => some (.IF)
  | "else" => some (.ELSE)
  | "return" => some (.RETURN)
  | _ => none

/-- LookupIdentifier of token.go: keyword table lookup, identifier otherwise. -/
def LookupIdentifier (ident : String) : TokenType :=
  match keywords ident with
  | some t => t
  | none => .IDENTIFIER

/-- isLetter of src/pkg/lexer/lexer.go. -/
def isLetter (ch : Char) : Bool :=
  ('a' ≤ ch && ch ≤ 'z') || ('A' ≤ ch && ch ≤ 'Z') || ch = '_'

/-- isDigit of src/pkg/lexer/lexer.go. -/
def isDigit (ch : Char) : Bool :=
  '0' ≤ ch && ch ≤ '9'

/-- Whitespace skipped by skipWhitespace of lexer.go. -/
def isJabaWhitespace (ch : Char) : Bool :=
  ch = ' ' || ch = '\t' || ch = '\n' || ch = '\r'

/-- The NUL character: lexer.go reads byte 0 at end of input, and
newToken(token.EOF, 0) gives the EOF token the literal string(0). -/
def nulChar : Char := Char.ofNat 0

/-- The EOF token produced by NextToken at end of input (its literal is the
one-byte string built from byte 0 by newToken). -/
def eofToken : Token := ⟨.EOF, String.mk [nulChar]⟩

/-- NextToken of src/pkg/lexer/lexer.go, on the remaining input. The Go
lexer walks a string with position indices and one byte of lookahead; here
the remaining input is the suffix list of characters, `peekChar` is the
head of the tail, and each branch returns the token together with the
input remaining after it, exactly as NextToken leaves the lexer. Go indexes
bytes; on the ASCII inputs of this development bytes and characters agree. -/
def nextToken (input : List Char) : Token × List Char :=
  match input.dropWhile isJabaWhitespace with
  | [] => (eofToken, [])
  | ch :: rest =>
    if ch = '=' then
      match rest with
      | '=' :: rest2 => (⟨.EQ, "=="⟩, rest2)
      | _ => (⟨.ASSIGN, "="⟩, rest)
    else if ch = '+' then (⟨.PLUS, "+"⟩, rest)
    else if ch = '-' then (⟨.MINUS, "-"⟩, rest)
    else if ch = '!' then
      match rest with
      | '=' :: rest2 => (⟨.NEQ, "!="⟩, rest2)
      | _ => (⟨.NOPE, "!"⟩, rest)
    else if ch = '*' then (⟨.ASTERISK, "*"⟩, rest)
    else if ch = '/' then (⟨.SLASH, "/"⟩, rest)
    else if ch = '<' then (⟨.LT, "<"⟩, rest)
    else if ch = '>' then (⟨.GT, ">"⟩, rest)
    else if ch = ',' then (⟨.COMMA, ","⟩, rest)
    else if ch = ';' then (⟨.SEMICOLON, ";"⟩, rest)
    else if ch = '(' then (⟨.LPAREN, "("⟩, rest)
    else if ch = ')' then (⟨.RPAREN, ")"⟩, rest)
    else if ch = '{' then (⟨.LBRACE, "\x7b"⟩, rest)
    else if ch = '}' then (⟨.RBRACE, "\x7d"⟩, rest)
    else if ch = '"' then
      -- readString: every byte until the next quote or end of input.
      let body := rest.takeWhile (fun c => !(c = '"'))
      let rest2 := rest.dropWhile (fun c => !(c = '"'))
      match rest2 with
      | [] => (⟨.STRING, String.mk body⟩, [])
      | _ :: rest3 => (⟨.STRING, String.mk body⟩, rest3)
    else if isLetter ch then
      -- readIdentifier then LookupIdentifier; NextToken returns without
      -- the trailing readChar in this branch.
      let lit := String.mk ((ch :: rest).takeWhile isLetter)
      (⟨LookupIdentifier lit, lit⟩, (ch :: rest).dropWhile isLetter)
    else if isDigit ch then
      let lit := String.mk ((ch :: rest).takeWhile isDigit)
      (⟨.INTEGER, lit⟩, (ch :: rest).dropWhile isDigit)
    else
      (⟨.ILLEGAL, String.mk [ch]⟩, rest)

/-- Repeated NextToken until EOF, collecting the tokens (EOF included).
NextToken is idempotent after EOF, so a finite fuel bounded by the input
length plus one captures the whole stream. -/
def lexTokens (fuel : Nat) (input : List Char) : List Token :=
  match fuel with
  | 0 => []
  | fuel + 1 =>
    let (tok, rest) := nextToken input
    if tok.ttype = .EOF then [tok] else tok :: lexTokens fuel rest

/-- The token stream of a source string. -/
def lexSource (source : String) : List Token :=
  lexTokens (source.length + 1) source.toList

example : lexSource ("let x = 1;") =
    [⟨.LET, "let"⟩, ⟨.IDENTIFIER, "x"⟩, ⟨.ASSIGN, "="⟩, ⟨.INTEGER, "1"⟩,
     ⟨.SEMICOLON, ";"⟩, eofToken] := by rfl

example : lexSource ("[") = [⟨.ILLEGAL, "["⟩, eofToken] := by rfl

/-!
AST model, from src/pkg/ast/ast.go. Every node there keeps its token for
stringification; tokens play no role in evaluation and the claims, so the
embedding keeps only the semantic fields. Go expression fields are
interfaces that the parser can leave nil (a failed sub-parse), so every
child expression is an `Option`. The nodes CallExpression, StringLiteral,
ArrayLiteral, IndexExpression and HashLiteral are referenced by
src/pkg/evaluator/evaluator.go but missing from ast.go of this snapshot;
they are modelled from the spec data model (Call(callee, arguments),
StringLiteral(text), ArrayLiteral(elements), IndexExpression(collection,
index), HashLiteral(pairs of key and value expressions)). ast.go stores
hash pairs in a Go map; the embedding keeps them as the parsed list.
-/

mutual
/-- Expression nodes of ast.go (see the section comment above). -/
inductive Expr where
  | Identifier (value : String)
  | IntegerLiteral (value : Int)
  | Boolean (value : Bool)
  | StringLiteral (value : String)
  | PrefixExpression (operator : String) (right : Option Expr)
  | InfixExpression (operator : String) (left : Option Expr) (right : Option Expr)
  | IfExpression (condition : Option Expr) (consequence : List Stmt)
      (alternative : Option (List Stmt))
  | FunctionLiteral (parameters : List String) (body : List Stmt)
  | CallExpression (function : Option Expr) (arguments : List (Option Expr))
  | ArrayLiteral (elements : List (Option Expr))
  | IndexExpression (left : Option Expr) (index : Option Expr)
  | HashLiteral (pairs : List (Option Expr × Option Expr))

/-- Statement nodes of ast.go; a BlockStatement is its list of statements. -/
inductive Stmt where
  | LetStatement (name : String) (value : Option Expr)
  | ReturnStatement (value : Option Expr)
  | ExpressionStatement (value : Option Expr)
  | BlockStatement (statements : List Stmt)
end

/-!
Object model. The current object.go (with ObjectType HASH_OBJECT, the
Hashable interface, HashKey and HashPair) is missing from this snapshot;
the objects below follow the latest object.go fragment present
(src/pkg/object, second document of environment.go) extended by Hash and
HashKey as the spec describes them. Go's *object.Environment pointers are
frame indices into a `Store`.
-/

/-- HashKey. Modelled from the spec: a hashable value exposes a
deterministic pair of its type tag and a 64-bit digest. -/
structure HashKey where
  ttype : String
  value : Nat
deriving DecidableEq

/-- Go run-time faults the evaluator can run into; none of them is an
object.Error value. -/
inductive GoPanic where
  | divideByZero
  | indexOutOfRange
  | nilInterface
  | typeAssertion
deriving DecidableEq

/-- Runtime values, from object.go (see the section comment above). An
Array element or a Hash value may be a nil Go interface, hence `Option`;
a stored Hash key object is never nil (a nil key panics before storage).
Function environments are store references. Builtin objects carry the
registry name they were built from. -/
inductive Object where
  | Integer (value : Int)
  | Boolean (value : Bool)
  | Null
  | ReturnValue (value : Option Object)
  | Error (message : String)
  | Function (parameters : List String) (body : List Stmt) (env : Nat)
  | String (value : String)
  | Builtin (name : String)
  | Array (elements : List (Option Object))
  | Hash (pairs : List (HashKey × Object × Option Object))

/-- ObjectType constants of object.go (HASH_OBJECT modelled from the spec;
note FUNCTION_OBJECT is the string "FUNCTION_OBJECT" in the source). -/
def INTEGER_OBJECT : String := "INTEGER"

def BOOLEAN_OBJECT : String := "BOOLEAN"

def NULL_OBJECT : String := "NULL"

def RETURN_VALUE_OBJECT : String := "RETURN_VALUE"

def ERROR_OBJECT : String := "ERROR"

def FUNCTION_OBJECT : String := "FUNCTION_OBJECT"

def STRING_OBJECT : String := "STRING"

def BUILTIN_OBJECT : String := "BUILTIN"

def ARRAY_OBJECT : String := "ARRAY"

def HASH_OBJECT : String := "HASH"

/-- The Type() method of each object kind. -/
def objectType : Object → String
  | .Integer _ => INTEGER_OBJECT
  | .Boolean _ => BOOLEAN_OBJECT
  | .Null => NULL_OBJECT
  | .ReturnValue _ => RETURN_VALUE_OBJECT
  | .Error _ => ERROR_OBJECT
  | .Function _ _ _ => FUNCTION_OBJECT
  | .String _ => STRING_OBJECT
  | .Builtin _ => BUILTIN_OBJECT
  | .Array _ => ARRAY_OBJECT
  | .Hash _ => HASH_OBJECT

/-- The singleton TRUE of the evaluator. -/
def TRUE : Object := .Boolean true

/-- The singleton FALSE of the evaluator. -/
def FALSE : Object := .Boolean false

/-- The singleton NULL of the evaluator. -/
def NULL : Object := .Null

/-- Two's-complement wrap of Go int64 arithmetic: the unique value congruent
mod 2^64 lying in [-2^63, 2^63). -/
def wrap64 (n : Int) : Int :=
  (n + 9223372036854775808) % 18446744073709551616 - 9223372036854775808

/-- The uint64 two's-complement reading of an int64 value (used by the
integer HashKey). -/
def u64ofI64 (n : Int) : Nat :=
  (n % 18446744073709551616).toNat

/-- 64-bit FNV-1a over the bytes of a string. Modelled from the spec:
strings use a stable 64-bit digest of their bytes; the Go standard
hash/fnv 64a parameters are used. ASCII strings are hashed byte per
character. -/
def fnv64a (s : String) : Nat :=
  s.toList.foldl
    (fun h c => ((h ^^^ c.toNat) * 1099511628211) % 18446744073709551616)
    14695981039346656037

/-- The Hashable protocol. Modelled from the spec: integers, booleans and
strings are the hashable types; integers digest to themselves (as uint64),
booleans to 1 and 0, strings to a stable 64-bit hash; every other type has
no hash key. -/
def hashKeyOf : Object → Option HashKey
  | .Integer v => some ⟨INTEGER_OBJECT, u64ofI64 v⟩
  | .Boolean b => some ⟨BOOLEAN_OBJECT, if b then 1 else 0⟩
  | .String s => some ⟨STRING_OBJECT, fnv64a s⟩
  | _ => none

/-- Go map insertion for Hash.Pairs: replace the pair at the key if
present, append otherwise. -/
def hashInsert (pairs : List (HashKey × Object × Option Object))
    (key : HashKey) (pair : Object × Option Object) :
    List (HashKey × Object × Option Object) :=
  match pairs with
  | [] => [(key, pair)]
  | (k, p) :: rest =>
    if k = key then (k, pair) :: rest else (k, p) :: hashInsert rest key pair

/-- Go map lookup for Hash.Pairs. -/
def hashLookup (pairs : List (HashKey × Object × Option Object))
    (key : HashKey) : Option (Object × Option Object) :=
  match pairs with
  | [] => none
  | (k, p) :: rest => if k = key then some p else hashLookup rest key

/-!
Environments, from src/unnamed/part_006 (the object package environment
with an outer pointer; NewEnclosedEnvironment is the revision the
evaluator calls). An Environment is a frame in a store; `outer` is the
reference of the enclosing frame. A stored value may be a nil interface.
-/

/-- One Environment value: its key-value store and optional outer frame. -/
structure Frame where
  store : List (String × Option Object)
  outer : Option Nat

/-- The heap of all allocated environments; a *object.Environment is an
index into it. -/
abbrev Store := List Frame

/-- NewEnvironment: allocate a fresh frame with no outer environment and
return its reference. -/
def newEnvironment (s : Store) : Nat × Store :=
  (s.length, s ++ [⟨[], none⟩])

/-- NewEnclosedEnvironment: allocate a fresh frame whose outer pointer is
the given environment. -/
def newEnclosedEnvironment (outer : Nat) (s : Store) : Nat × Store :=
  (s.length, s ++ [⟨[], some outer⟩])

/-- Go map lookup in one frame's store. -/
def frameLookup (entries : List (String × Option Object)) (key : String) :
    Option (Option Object) :=
  match entries with
  | [] => none
  | (k, v) :: rest => if k = key then some v else frameLookup rest key

/-- Go map insert in one frame's store. -/
def frameInsert (entries : List (String × Option Object)) (key : String)
    (value : Option Object) : List (String × Option Object) :=
  match entries with
  | [] => [(key, value)]
  | (k, v) :: rest =>
    if k = key then (k, value) :: rest else (k, v) :: frameInsert rest key value

/-- The chain walk of Environment.Get of part_006: look in the own store,
and on a miss walk to the outer environment. Frames are allocated
append-only with their outer frame already present, so every outer
reference is strictly smaller than the frame's own reference and a chain
from frame `ref` has at most `ref + 1` frames; the fuel below recurses
along that bound (it runs out only on stores this evaluator never
builds). -/
def envGetAux : Nat → Store → Nat → String → Option (Option Object)
  | 0, _, _, _ => none
  | fuel + 1, s, ref, key =>
    match s[ref]? with
    | none => none
    | some frame =>
      match frameLookup frame.store key with
      | some v => some v
      | none =>
        match frame.outer with
        | none => none
        | some outer => envGetAux fuel s outer key

/-- Environment.Get of part_006. -/
def envGet (s : Store) (ref : Nat) (key : String) : Option (Option Object) :=
  envGetAux (ref + 1) s ref key

/-- Environment.Set: insert into the innermost frame only (the frame the
reference names; other frames are untouched). -/
def envSet (s : Store) (ref : Nat) (key : String) (value : Option Object) :
    Store :=
  match s, ref with
  | [], _ => []
  | f :: rest, 0 => ⟨frameInsert f.store key value, f.outer⟩ :: rest
  | f :: rest, r + 1 => f :: envSet rest r key value

/-!
Evaluator helpers, from src/pkg/evaluator/evaluator.go. newError produces
an object.Error whose message is the Sprintf-formatted text; the format
strings below are copied verbatim from the source (including the double
space in the hash-literal message and the missing colon in the
integer-infix fallback message).
-/

/-- newError of evaluator.go. -/
def newError (message : String) : Object := .Error message

/-- isError of evaluator.go: true exactly when the (possibly nil) object
is an object.Error. -/
def isError : Option Object → Bool
  | some (.Error _) => true
  | _ => false

/-- nativeBooleanToBooleanObject of evaluator.go: the TRUE and FALSE
singletons. -/
def nativeBooleanToBooleanObject (input : Bool) : Object :=
  if input then TRUE else FALSE

/-- The Go interface comparison `left == right` performed by the == and !=
branch of evalInfixExpression. Operands reaching it are never object.Error
values (callers short-circuit on errors); two nil interfaces are equal; the
TRUE, FALSE and NULL operands are the package-level singletons, so their
identity is their tag; every other operand built by this evaluator is a
fresh allocation, and two fresh allocations are distinct, so identity is
false. (Aliased composite operands — the same allocation reached twice
through an environment — are outside this model; no theorem below
evaluates such a program through this branch.) -/
def goInterfaceEq : Option Object → Option Object → Bool
  | none, none => true
  | some (.Boolean a), some (.Boolean b) => a = b
  | some .Null, some .Null => true
  | _, _ => false

/-- evalNopePrefixOperatorExpression of evaluator.go: ! maps TRUE to FALSE,
FALSE and NULL to TRUE, and everything else (nil included) to FALSE. -/
def evalNopePrefixOperatorExpression (right : Option Object) : Object :=
  match right with
  | some (.Boolean true) => FALSE
  | some (.Boolean false) => TRUE
  | some .Null => TRUE
  | _ => FALSE

/-- evalMinusPrefixOperatorExpression of evaluator.go: minus is only
defined on integers (right.Type() on a nil operand panics). -/
def evalMinusPrefixOperatorExpression (right : Option Object) :
    Except GoPanic Object :=
  match right with
  | none => .error (.nilInterface)
  | some r =>
    if objectType r ≠ INTEGER_OBJECT then
      .ok (newError ("unknown operation: -" ++ objectType r))
    else
      match r with
      | .Integer v => .ok (.Integer (wrap64 (-v)))
      | _ => .error (.typeAssertion)

/-- evalPrefixExpression of evaluator.go. -/
def evalPrefixExpression (operator : String) (right : Option Object) :
    Except GoPanic Object :=
  match operator with
  | "!" => .ok (evalNopePrefixOperatorExpression right)
  | "-" => evalMinusPrefixOperatorExpression right
  | _ =>
    match right with
    | none => .error (.nilInterface)
    | some r =>
      .ok (newError ("unknown operation: " ++ operator ++ " " ++ objectType r))

/-- evalIntegerInfixExpression of evaluator.go: both operands are known to
have type INTEGER. Go int64 operations wrap; x / 0 is a run-time panic and
x / y otherwise truncates toward zero (with minInt64 / -1 wrapping, as the
Go specification defines). Note the fallback message of this function
really lacks the colon after "operation". -/
def evalIntegerInfixExpression (operator : String) (left right : Object) :
    Except GoPanic Object :=
  match left, right with
  | .Integer a, .Integer b =>
    match operator with
    | "+" => .ok (.Integer (wrap64 (a + b)))
    | "-" => .ok (.Integer (wrap64 (a - b)))
    | "*" => .ok (.Integer (wrap64 (a * b)))
    | "/" =>
      if b = 0 then .error (.divideByZero)
      else .ok (.Integer (wrap64 (Int.tdiv a b)))
    | "<" => .ok (nativeBooleanToBooleanObject (a < b))
    | ">" => .ok (nativeBooleanToBooleanObject (a > b))
    | "==" => .ok (nativeBooleanToBooleanObject (a = b))
    | "!=" => .ok (nativeBooleanToBooleanObject (a ≠ b))
    | _ =>
      .ok (newError ("unknown operation " ++ objectType left ++ " " ++
        operator ++ " " ++ objectType right))
  | _, _ => .error (.typeAssertion)

/-- evalStringInfixExpression of evaluator.go: only + is defined on two
strings; everything else is the unknown-operation error. -/
def evalStringInfixExpression (operator : String) (left right : Object) :
    Except GoPanic Object :=
  if operator ≠ "+" then
    .ok (newError ("unknown operation: " ++ objectType left ++ " " ++
      operator ++ " " ++ objectType right))
  else
    match left, right with
    | .String a, .String b => .ok (.String (a ++ b))
    | _, _ => .error (.typeAssertion)

/-- evalInfixExpression of evaluator.go. The switch cases are tried in
source order: first both-integers (whose condition calls left.Type() and
then right.Type(), panicking on nil in that order), then the == and !=
reference comparisons, then both-strings (right.Type() is evaluated before
left.Type() in that condition), then mismatched types, then the unknown
operation fallback. -/
def evalInfixExpression (operator : String) (left right : Option Object) :
    Except GoPanic Object :=
  match left with
  | none => .error (.nilInterface)
  | some l =>
    if objectType l = INTEGER_OBJECT then
      match right with
      | none => .error (.nilInterface)
      | some r =>
        if objectType r = INTEGER_OBJECT then
          evalIntegerInfixExpression operator l r
        else if operator = "==" then
          .ok (nativeBooleanToBooleanObject (goInterfaceEq left right))
        else if operator = "!=" then
          .ok (nativeBooleanToBooleanObject (!goInterfaceEq left right))
        else if objectType r = STRING_OBJECT ∧ objectType l = STRING_OBJECT then
          evalStringInfixExpression operator l r
        else if objectType l ≠ objectType r then
          .ok (newError ("type mismatch: " ++ objectType l ++ " " ++
            operator ++ " " ++ objectType r))
        else
          .ok (newError ("unknown operation: " ++ objectType l ++ " " ++
            operator ++ " " ++ objectType r))
    else if operator = "==" then
      .ok (nativeBooleanToBooleanObject (goInterfaceEq left right))
    else if operator = "!=" then
      .ok (nativeBooleanToBooleanObject (!goInterfaceEq left right))
    else
      match right with
      | none => .error (.nilInterface)
      | some r =>
        if objectType r = STRING_OBJECT ∧ objectType l = STRING_OBJECT then
          evalStringInfixExpression operator l r
        else if objectType l ≠ objectType r then
          .ok (newError ("type mismatch: " ++ objectType l ++ " " ++
            operator ++ " " ++ objectType r))
        else
          .ok (newError ("unknown operation: " ++ objectType l ++ " " ++
            operator ++ " " ++ objectType r))

/-- isTruthy of evaluator.go: NULL and FALSE are falsey, TRUE is truthy,
and any other object — nil included — falls to the default and is truthy. -/
def isTruthy : Option Object → Bool
  | some .Null => false
  | some (.Boolean b) => b
  | _ => true

/-- unwrapReturnValue of evaluator.go. -/
def unwrapReturnValue (result : Option Object) : Option Object :=
  match result with
  | some (.ReturnValue v) => v
  | _ => result

/-- evalArrayIndexExpression of evaluator.go: a negative or too large
index yields NULL, not an error; a stored element may be a nil interface
and is returned as such. -/
def evalArrayIndexExpression (array index : Object) :
    Except GoPanic (Option Object) :=
  match array, index with
  | .Array elements, .Integer idx =>
    if idx < 0 ∨ idx > (elements.length : Int) - 1 then .ok (some NULL)
    else
      match elements[idx.toNat]? with
      | some v => .ok v
      | none => .error (.indexOutOfRange)
  | _, _ => .error (.typeAssertion)

/-- evalHashIndexExpression of evaluator.go: an unhashable index is the
"unusable as hash key" error; a lookup miss is NULL; a stored value may be
a nil interface and is returned as such. -/
def evalHashIndexExpression (hash : Object) (index : Option Object) :
    Except GoPanic (Option Object) :=
  match hash with
  | .Hash pairs =>
    match index with
    | none => .error (.nilInterface)
    | some idx =>
      match hashKeyOf idx with
      | none =>
        .ok (some (newError ("unusable as hash key: " ++ objectType idx)))
      | some hk =>
        match hashLookup pairs hk with
        | none => .ok (some NULL)
        | some (_, v) => .ok v
  | _ => .error (.typeAssertion)

/-- evalIndexExpression of evaluator.go: arrays indexed by integers,
hashes by anything (checked inside), everything else unsupported. The
switch conditions run in source order, so left.Type() and (in the array
case) index.Type() panic on nil operands. -/
def evalIndexExpression (left index : Option Object) :
    Except GoPanic (Option Object) :=
  match left with
  | none => .error (.nilInterface)
  | some l =>
    if objectType l = ARRAY_OBJECT then
      match index with
      | none => .error (.nilInterface)
      | some i =>
        if objectType i = INTEGER_OBJECT then evalArrayIndexExpression l i
        else if objectType l = HASH_OBJECT then evalHashIndexExpression l index
        else
          .ok (some (newError ("index operator not supported: " ++
            objectType l)))
    else if objectType l = HASH_OBJECT then evalHashIndexExpression l index
    else
      .ok (some (newError ("index operator not supported: " ++ objectType l)))

/-!
Builtins, from src/unnamed/part_000 (the full registry revision; the
builtins.go stub under src/pkg/evaluator is an earlier revision of the
same file). puts prints via the output collaborator; the printing side
effect is outside the value model, so puts only contributes its NULL
result here.
-/

/-- The builtins registry keys; evalIdentifier falls back to this table. -/
def builtinsLookup : String → Option Object
  | "len" => some (.Builtin ("len"))
  | "first" => some (.Builtin ("first"))
  | "last" => some (.Builtin ("last"))
  | "rest" => some (.Builtin ("rest"))
  | "push" => some (.Builtin ("push"))
  | "puts" => some (.Builtin ("puts"))
  | _ => none

/-- The wrong-number-of-arguments error every builtin produces. -/
def wrongArgCount (got want : Nat) : Object :=
  newError ("wrong number of arguments. got: " ++ toString got ++
    " want: " ++ toString want)

/-- The native function of each registered builtin, from part_000. A nil
argument reaching a Type() call or a type switch default panics, as the
Go method call on a nil interface would. -/
def builtinApply (name : String) (args : List (Option Object)) :
    Except GoPanic (Option Object) :=
  match name with
  | "len" =>
    match args with
    | [some (.Array elements)] => .ok (some (.Integer (elements.length : Int)))
    | [some (.String s)] => .ok (some (.Integer (s.length : Int)))
    | [some o] =>
      .ok (some (newError ("argument to len not supported, got: " ++
        objectType o)))
    | [none] => .error (.nilInterface)
    | _ => .ok (some (wrongArgCount args.length 1))
  | "first" =>
    match args with
    | [some (.Array elements)] =>
      match elements with
      | [] => .ok (some NULL)
      | v :: _ => .ok v
    | [some o] =>
      .ok (some (newError ("argument to first must be an array, got: " ++
        objectType o)))
    | [none] => .error (.nilInterface)
    | _ => .ok (some (wrongArgCount args.length 1))
  | "last" =>
    match args with
    | [some (.Array elements)] =>
      match elements.getLast? with
      | none => .ok (some NULL)
      | some v => .ok v
    | [some o] =>
      .ok (some (newError ("argument to last must be an array, got: " ++
        objectType o)))
    | [none] => .error (.nilInterface)
    | _ => .ok (some (wrongArgCount args.length 1))
  | "rest" =>
    match args with
    | [some (.Array elements)] =>
      match elements with
      | [] => .ok (some NULL)
      | _ :: tail => .ok (some (.Array tail))
    | [some o] =>
      .ok (some (newError ("argument to rest must be an array, got: " ++
        objectType o)))
    | [none] => .error (.nilInterface)
    | _ => .ok (some (wrongArgCount args.length 1))
  | "push" =>
    match args with
    | [some (.Array elements), x] => .ok (some (.Array (elements ++ [x])))
    | [some o, _] =>
      .ok (some (newError ("argument to push must be an array, got: " ++
        objectType o)))
    | [none, _] => .error (.nilInterface)
    | _ => .ok (some (wrongArgCount args.length 2))
  | _ => .ok (some NULL)

/-!
The evaluator proper. Go's Eval of evaluator.go is one recursive function
switching on the dynamic node type, with recursive helpers (evalProgram,
evalBlockStatements, evalExpressions, evalHashLiteral, applyFunctions).
The embedding is likewise one fuel-indexed recursive function `run` over
a sum of the evaluator's work items — one constructor per Go function in
that recursive nest — and each Go function name is recovered as a wrapper
below. Each step consumes one unit of fuel; `timeout` marks exhaustion
and never corresponds to a Go behaviour.
-/

/-- The result of one Go evaluator call: a returned (possibly nil) object
together with the environment store, a run-time panic, or fuel
exhaustion. -/
inductive Res where
  | ok (value : Option Object) (store : Store)
  | panic (p : GoPanic)
  | timeout

/-- The result of evalExpressions: a list of (possibly nil) objects plus
the store, or a panic, or fuel exhaustion. -/
inductive ResList where
  | ok (values : List (Option Object)) (store : Store)
  | panic (p : GoPanic)
  | timeout

/-- extendFunctionEnv of evaluator.go, split into the parameter-binding
loop: `for i, param := range fn.Parameters { env.Set(param.Value, args[i]) }`.
The loop indexes args with no bound check: the first missing argument is
an index-out-of-range panic. Extra arguments are ignored. -/
def setParams (params : List String) (args : List (Option Object))
    (ref : Nat) (store : Store) : Except GoPanic Store :=
  match params, args with
  | [], _ => .ok store
  | _ :: _, [] => .error (.indexOutOfRange)
  | p :: ps, a :: rest => setParams ps rest ref (envSet store ref p a)

/-- extendFunctionEnv of evaluator.go: a fresh environment enclosed by the
function's captured environment, with each parameter bound to its
argument by position. -/
def extendFunctionEnv (params : List String) (fnEnv : Nat)
    (args : List (Option Object)) (store : Store) :
    Except GoPanic (Nat × Store) :=
  match newEnclosedEnvironment fnEnv store with
  | (ref, store1) =>
    match setParams params args ref store1 with
    | .ok store2 => .ok (ref, store2)
    | .error p => .error p

/-- The work items of the evaluator's recursive nest: one per Go function
(Eval on a statement, Eval on an expression, evalProgram,
evalBlockStatements, evalExpressions, the loop of evalHashLiteral, and
applyFunctions). -/
inductive Work where
  | stmt (s : Stmt) (env : Nat)
  | expr (e : Expr) (env : Nat)
  | program (stmts : List Stmt) (env : Nat)
  | block (stmts : List Stmt) (env : Nat)
  | exprList (es : List (Option Expr)) (env : Nat)
  | hashLoop (ps : List (Option Expr × Option Expr))
      (acc : List (HashKey × Object × Option Object)) (env : Nat)
  | applyFn (fn : Option Object) (args : List (Option Object))

/-- The result of one `run` step: a single (possibly nil) object or — for
the exprList item only — a list of objects, plus the store; or a panic;
or fuel exhaustion. -/
inductive RRes where
  | val (v : Option Object) (store : Store)
  | vals (vs : List (Option Object)) (store : Store)
  | panic (p : GoPanic)
  | timeout

/-- The recursive nest of evaluator.go as one fuel-indexed function. Each
`Work` case is the body of the corresponding Go function; a nil
sub-expression (`Eval(nil)`) matches no case of the Go Eval switch and
yields nil. A `.vals` result can only arise from an `.exprList` item and
a `.val` result never does; the mismatched projections below therefore
sit on unreachable branches (mapped to `.timeout`). -/
def run : Nat → Work → Store → RRes
  | 0, _, _ => .timeout
  | fuel + 1, w, store =>
    match w with
    | .stmt stmt env =>
      -- the statement cases of Eval
      match stmt with
      | .ExpressionStatement value =>
        match value with
        | none => .val none store
        | some e => run fuel (.expr e env) store
      | .BlockStatement statements =>
        run fuel (.block statements env) store
      | .ReturnStatement value =>
        match (match value with
               | none => RRes.val none store
               | some e => run fuel (.expr e env) store) with
        | .val v store2 =>
          if isError v then .val v store2
          else .val (some (.ReturnValue v)) store2
        | .vals _ _ => .timeout
        | .panic p => .panic p
        | .timeout => .timeout
      | .LetStatement name value =>
        match (match value with
               | none => RRes.val none store
               | some e => run fuel (.expr e env) store) with
        | .val v store2 =>
          if isError v then .val v store2
          else .val none (envSet store2 env name v)
        | .vals _ _ => .timeout
        | .panic p => .panic p
        | .timeout => .timeout
    | .expr e env =>
      -- the expression cases of Eval, including evalIdentifier,
      -- evalIfExpression and the call expression wiring
      match e with
      | .IntegerLiteral v => .val (some (.Integer v)) store
      | .Boolean b => .val (some (nativeBooleanToBooleanObject b)) store
      | .StringLiteral s => .val (some (.String s)) store
      | .Identifier name =>
        match envGet store env name with
        | some v => .val v store
        | none =>
          match builtinsLookup name with
          | some b => .val (some b) store
          | none =>
            .val (some (newError ("identifier not found: " ++ name))) store
      | .PrefixExpression op right =>
        match (match right with
               | none => RRes.val none store
               | some r => run fuel (.expr r env) store) with
        | .val rv store2 =>
          if isError rv then .val rv store2
          else
            match evalPrefixExpression op rv with
            | .ok o => .val (some o) store2
            | .error p => .panic p
        | .vals _ _ => .timeout
        | .panic p => .panic p
        | .timeout => .timeout
      | .InfixExpression op left right =>
        match (match left with
               | none => RRes.val none store
               | some l => run fuel (.expr l env) store) with
        | .val lv store2 =>
          if isError lv then .val lv store2
          else
            match (match right with
                   | none => RRes.val none store2
                   | some r => run fuel (.expr r env) store2) with
            | .val rv store3 =>
              if isError rv then .val rv store3
              else
                match evalInfixExpression op lv rv with
                | .ok o => .val (some o) store3
                | .error p => .panic p
            | .vals _ _ => .timeout
            | .panic p => .panic p
            | .timeout => .timeout
        | .vals _ _ => .timeout
        | .panic p => .panic p
        | .timeout => .timeout
      | .IfExpression cond cons alt =>
        match (match cond with
               | none => RRes.val none store
               | some c => run fuel (.expr c env) store) with
        | .val cv store2 =>
          if isError cv then .val cv store2
          else if isTruthy cv then run fuel (.block cons env) store2
          else
            match alt with
            | some altBlock => run fuel (.block altBlock env) store2
            | none => .val (some NULL) store2
        | .vals _ _ => .timeout
        | .panic p => .panic p
        | .timeout => .timeout
      | .FunctionLiteral params body =>
        .val (some (.Function params body env)) store
      | .CallExpression fn args =>
        match (match fn with
               | none => RRes.val none store
               | some f => run fuel (.expr f env) store) with
        | .val fv store2 =>
          if isError fv then .val fv store2
          else
            match run fuel (.exprList args env) store2 with
            | .vals argv store3 =>
              if argv.length = 1 && isError (argv.getD 0 none) then
                .val (argv.getD 0 none) store3
              else run fuel (.applyFn fv argv) store3
            | .val _ _ => .timeout
            | .panic p => .panic p
            | .timeout => .timeout
        | .vals _ _ => .timeout
        | .panic p => .panic p
        | .timeout => .timeout
      | .ArrayLiteral elems =>
        match run fuel (.exprList elems env) store with
        | .vals vs store2 =>
          if vs.length = 1 && isError (vs.getD 0 none) then
            .val (vs.getD 0 none) store2
          else .val (some (.Array vs)) store2
        | .val _ _ => .timeout
        | .panic p => .panic p
        | .timeout => .timeout
      | .IndexExpression left index =>
        match (match left with
               | none => RRes.val none store
               | some l => run fuel (.expr l env) store) with
        | .val lv store2 =>
          if isError lv then .val lv store2
          else
            match (match index with
                   | none => RRes.val none store2
                   | some i => run fuel (.expr i env) store2) with
            | .val iv store3 =>
              if isError iv then .val iv store3
              else
                match evalIndexExpression lv iv with
                | .ok v => .val v store3
                | .error p => .panic p
            | .vals _ _ => .timeout
            | .panic p => .panic p
            | .timeout => .timeout
        | .vals _ _ => .timeout
        | .panic p => .panic p
        | .timeout => .timeout
      | .HashLiteral pairs => run fuel (.hashLoop pairs [] env) store
    | .program stmts env =>
      -- evalProgram: an Error short-circuits and is returned as is; a
      -- ReturnValue short-circuits and is returned unwrapped; otherwise
      -- the last statement's result (nil for the empty program) remains
      match stmts with
      | [] => .val none store
      | stmt :: rest =>
        match run fuel (.stmt stmt env) store with
        | .val v store2 =>
          match v with
          | some (.ReturnValue rv) => .val rv store2
          | some (.Error m) => .val (some (.Error m)) store2
          | _ =>
            match rest with
            | [] => .val v store2
            | _ :: _ => run fuel (.program rest env) store2
        | .vals _ _ => .timeout
        | .panic p => .panic p
        | .timeout => .timeout
    | .block stmts env =>
      -- evalBlockStatements: like evalProgram, but a non-nil result whose
      -- Type() is RETURN_VALUE or ERROR is returned still wrapped
      match stmts with
      | [] => .val none store
      | stmt :: rest =>
        match run fuel (.stmt stmt env) store with
        | .val v store2 =>
          match v with
          | some o =>
            if objectType o = RETURN_VALUE_OBJECT ∨
                objectType o = ERROR_OBJECT then
              .val (some o) store2
            else
              match rest with
              | [] => .val (some o) store2
              | _ :: _ => run fuel (.block rest env) store2
          | none =>
            match rest with
            | [] => .val none store2
            | _ :: _ => run fuel (.block rest env) store2
        | .vals _ _ => .timeout
        | .panic p => .panic p
        | .timeout => .timeout
    | .exprList es env =>
      -- evalExpressions: left to right; the first error stops evaluation
      -- and is returned as a singleton list
      match es with
      | [] => .vals [] store
      | oe :: rest =>
        match (match oe with
               | none => RRes.val none store
               | some e => run fuel (.expr e env) store) with
        | .val v store2 =>
          if isError v then .vals [v] store2
          else
            match run fuel (.exprList rest env) store2 with
            | .vals vs store3 => .vals (v :: vs) store3
            | .val _ _ => .timeout
            | .panic p => .panic p
            | .timeout => .timeout
        | .vals _ _ => .timeout
        | .panic p => .panic p
        | .timeout => .timeout
    | .hashLoop ps acc env =>
      -- the loop of evalHashLiteral, with the accumulated Pairs map; a
      -- key that evaluates to an error or an unhashable value stops
      -- construction (note the construction-time message "unable to hash
      -- key:  " of the source, unlike the lookup-time message); a nil
      -- key panics at key.Type()
      match ps with
      | [] => .val (some (.Hash acc)) store
      | (keyNode, valueNode) :: rest =>
        match (match keyNode with
               | none => RRes.val none store
               | some k => run fuel (.expr k env) store) with
        | .val kv store2 =>
          if isError kv then .val kv store2
          else
            match kv with
            | none => .panic (.nilInterface)
            | some k =>
              match hashKeyOf k with
              | none =>
                .val (some (newError ("unable to hash key:  " ++
                  objectType k))) store2
              | some hk =>
                match (match valueNode with
                       | none => RRes.val none store2
                       | some v => run fuel (.expr v env) store2) with
                | .val vv store3 =>
                  if isError vv then .val vv store3
                  else
                    run fuel (.hashLoop rest (hashInsert acc hk (k, vv)) env)
                      store3
                | .vals _ _ => .timeout
                | .panic p => .panic p
                | .timeout => .timeout
        | .vals _ _ => .timeout
        | .panic p => .panic p
        | .timeout => .timeout
    | .applyFn fn args =>
      -- applyFunctions: user functions get a fresh enclosed environment,
      -- their block body evaluated there, and one layer of ReturnValue
      -- unwrapped; builtins are invoked natively; anything else is the
      -- not-a-function error (a nil callee panics at fn.Type())
      match fn with
      | some (.Function params body fnEnv) =>
        match extendFunctionEnv params fnEnv args store with
        | .ok (ref, store2) =>
          match run fuel (.block body ref) store2 with
          | .val v store3 => .val (unwrapReturnValue v) store3
          | .vals _ _ => .timeout
          | .panic p => .panic p
          | .timeout => .timeout
        | .error p => .panic p
      | some (.Builtin name) =>
        match builtinApply name args with
        | .ok v => .val v store
        | .error p => .panic p
      | some o =>
        .val (some (newError ("not a function: " ++ objectType o))) store
      | none => .panic (.nilInterface)

/-- Projection of a single-value run result. -/
def toRes : RRes → Res
  | .val v store => .ok v store
  | .vals _ _ => .timeout
  | .panic p => .panic p
  | .timeout => .timeout

/-- Eval of evaluator.go restricted to statement nodes. -/
def evalStmt (fuel : Nat) (stmt : Stmt) (env : Nat) (store : Store) : Res :=
  toRes (run fuel (.stmt stmt env) store)

/-- Eval of evaluator.go restricted to expression nodes. -/
def evalExpr (fuel : Nat) (e : Expr) (env : Nat) (store : Store) : Res :=
  toRes (run fuel (.expr e env) store)

/-- evalProgram of evaluator.go. -/
def evalProgram (fuel : Nat) (stmts : List Stmt) (env : Nat)
    (store : Store) : Res :=
  toRes (run fuel (.program stmts env) store)

/-- evalBlockStatements of evaluator.go. -/
def evalBlockStatements (fuel : Nat) (stmts : List Stmt) (env : Nat)
    (store : Store) : Res :=
  toRes (run fuel (.block stmts env) store)

/-- evalExpressions of evaluator.go. -/
def evalExpressions (fuel : Nat) (es : List (Option Expr)) (env : Nat)
    (store : Store) : ResList :=
  match run fuel (.exprList es env) store with
  | .vals vs store2 => .ok vs store2
  | .val _ _ => .timeout
  | .panic p => .panic p
  | .timeout => .timeout

/-- evalHashLiteral of evaluator.go (the loop started on the empty Pairs
map). -/
def evalHashLiteral (fuel : Nat) (ps : List (Option Expr × Option Expr))
    (env : Nat) (store : Store) : Res :=
  toRes (run fuel (.hashLoop ps [] env) store)

/-- applyFunctions of evaluator.go. -/
def applyFunctions (fuel : Nat) (fn : Option Object)
    (args : List (Option Object)) (store : Store) : Res :=
  toRes (run fuel (.applyFn fn args) store)

/-- A program evaluated the way the REPL does it: a fresh top-level
environment (reference 0 in a one-frame store), then evalProgram. -/
def evalProgramJaba (fuel : Nat) (statements : List Stmt) : Res :=
  match newEnvironment [] with
  | (env, store) => evalProgram fuel statements env store

/-- The returned (possibly nil) object of a result, when it is one. -/
def resultValue : Res → Option (Option Object)
  | .ok v _ => some v
  | _ => none

/-- The panic of a result, when it is one. -/
def resultPanic : Res → Option GoPanic
  | .panic p => some p
  | _ => none

/-!
Parser, from src/pkg/parser/parser.go (the revision in this snapshot: its
New registers prefix handlers for identifiers, integers, !, -, true,
false, grouped expressions, if and fn, and infix handlers for the eight
binary operators and the call form; it registers nothing for STRING,
LBRACE or any bracket token). The two-token lookahead window and the
collected error list form the parser state; the pulled lexer is replaced
by the already computed token list, with NextToken idempotent at EOF.
-/

/-- Parser state: remaining tokens beyond the lookahead window, the
current and peek tokens, and the collected error messages. -/
structure PState where
  tokens : List Token
  currentToken : Token
  peekToken : Token
  errors : List String

/-- nextToken of the parser: current becomes peek, peek pulls the next
lexer token (EOF forever once the stream is exhausted). -/
def pNext (s : PState) : PState :=
  ⟨s.tokens.tail, s.peekToken, s.tokens.headD eofToken, s.errors⟩

/-- New of parser.go: initialize and read two tokens. -/
def newParser (ts : List Token) : PState :=
  pNext (pNext ⟨ts, eofToken, eofToken, []⟩)

/-- Precedence constants of parser.go (iota order). -/
def LOWEST : Nat := 1

/-- EQUALS precedence (== and !=). -/
def EQUALS : Nat := 2

/-- LESSGREATER precedence (< and >). -/
def LESSGREATER : Nat := 3

/-- SUM precedence (+ and -). -/
def SUM : Nat := 4

/-- PRODUCT precedence (* and /). -/
def PRODUCT : Nat := 5

/-- PREFIX precedence (-x and !x). -/
def PREFIX : Nat := 6

/-- CALL precedence (the ( of a call expression). -/
def CALL : Nat := 7

/-- The precedences map of parser.go. -/
def precedences : TokenType → Option Nat
  | .EQ => some EQUALS
  | .NEQ => some EQUALS
  | .LT => some LESSGREATER
  | .GT => some LESSGREATER
  | .PLUS => some SUM
  | .MINUS => some SUM
  | .SLASH => some PRODUCT
  | .ASTERISK => some PRODUCT
  | .LPAREN => some CALL
  | _ => none

/-- peekPrecedence of parser.go: LOWEST when the peek token has none. -/
def peekPrecedence (s : PState) : Nat :=
  (precedences s.peekToken.ttype).getD LOWEST

/-- currentPrecedence of parser.go. -/
def currentPrecedence (s : PState) : Nat :=
  (precedences s.currentToken.ttype).getD LOWEST

/-- peekError of parser.go: the recorded message for a failed expectPeek. -/
def peekError (t : TokenType) (s : PState) : PState :=
  ⟨s.tokens, s.currentToken, s.peekToken,
    s.errors ++ ["expected next token to be " ++ tokenTypeString t ++
      ", got " ++ tokenTypeString s.peekToken.ttype]⟩

/-- noPrefixParseError of parser.go. -/
def noPrefixParseError (t : TokenType) (s : PState) : PState :=
  ⟨s.tokens, s.currentToken, s.peekToken,
    s.errors ++ ["no prefix parse function for " ++ tokenTypeString t ++
      " found"]⟩

/-- The token types New of parser.go registers a prefix parse function
for (registerPrefix calls, in source order). -/
def registeredPrefixFns : List TokenType :=
  [.IDENTIFIER, .INTEGER, .NOPE, .MINUS, .TRUE, .FALSE, .LPAREN, .IF,
   .FUNCTION]

/-- The token types New of parser.go registers an infix parse function
for (registerInfix calls, in source order). -/
def registeredInfixFns : List TokenType :=
  [.EQ, .NEQ, .LT, .GT, .PLUS, .MINUS, .SLASH, .ASTERISK, .LPAREN]

/-- The decimal value of an INTEGER literal (strconv.ParseInt on a string
the lexer guarantees to be all digits). -/
def digitsToNat (lit : String) : Nat :=
  lit.toList.foldl (fun a c => a * 10 + (c.toNat - 48)) 0

/-- parseIntegerLiteral of parser.go: ParseInt(lit, 10, 64) fails exactly
when the digits exceed the int64 range, recording the could-not-parse
error. -/
def parseIntegerLiteral (s : PState) : Option Expr × PState :=
  let n := digitsToNat s.currentToken.literal
  if n ≤ 9223372036854775807 then (some (.IntegerLiteral (n : Int)), s)
  else
    (none,
      ⟨s.tokens, s.currentToken, s.peekToken,
        s.errors ++ ["could not parse \"" ++ s.currentToken.literal ++
          "\" as integer"]⟩)

/-- The work items of the parser's recursive descent: one constructor
per parser.go function in the recursive nest (parseStatement,
parseLetStatement, parseReturnStatement, parseExpressionStatement,
parseExpression and its Pratt loop, the prefix and infix dispatch
tables, parsePrefixExpression, parseInfixExpression,
parseGroupedExpression, parseIfExpression, parseBlockStatement and its
loop, parseFunctionLiteral, parseFunctionParameters and its comma loop,
parseCallExpression, parseCallArguments and its comma loop, and the
ParseProgram loop). -/
inductive PWork where
  | statement
  | letStatement
  | returnStatement
  | expressionStatement
  | expression (prec : Nat)
  | expressionLoop (prec : Nat) (left : Option Expr)
  | prefixDispatch
  | prefixOperator
  | infixDispatch (left : Option Expr)
  | infixOperator (left : Option Expr)
  | groupedExpression
  | ifExpression
  | blockStatement
  | blockLoop
  | functionLiteral
  | functionParameters
  | parameterRest (acc : List String)
  | callExpression (left : Option Expr)
  | callArguments
  | argumentRest (acc : List (Option Expr))
  | programLoop

/-- The result of one parser step: the produced node (or node list)
together with the parser state. -/
inductive PRes where
  | expr (e : Option Expr) (s : PState)
  | stmt (st : Option Stmt) (s : PState)
  | stmts (l : List Stmt) (s : PState)
  | names (l : List String) (s : PState)
  | exprs (l : List (Option Expr)) (s : PState)

/-- The parser state carried by a PRes. -/
def PRes.state : PRes → PState
  | .expr _ s => s
  | .stmt _ s => s
  | .stmts _ s => s
  | .names _ s => s
  | .exprs _ s => s

/-- The recursive descent of parser.go as one fuel-indexed function; each
`PWork` case is the body of the corresponding Go function (see `PWork`).
Each result kind is fixed by the work kind, so the mismatched projections
sit on unreachable branches. -/
def parseRun : Nat → PWork → PState → PRes
  | 0, w, s =>
    match w with
    | .statement => .stmt none s
    | .letStatement => .stmt none s
    | .returnStatement => .stmt none s
    | .expressionStatement => .stmt none s
    | .expression _ => .expr none s
    | .expressionLoop _ left => .expr left s
    | .prefixDispatch => .expr none s
    | .prefixOperator => .expr none s
    | .infixDispatch _ => .expr none s
    | .infixOperator _ => .expr none s
    | .groupedExpression => .expr none s
    | .ifExpression => .expr none s
    | .blockStatement => .stmts [] s
    | .blockLoop => .stmts [] s
    | .functionLiteral => .expr none s
    | .functionParameters => .names [] s
    | .parameterRest acc => .names acc s
    | .callExpression _ => .expr none s
    | .callArguments => .exprs [] s
    | .argumentRest acc => .exprs acc s
    | .programLoop => .stmts [] s
  | fuel + 1, w, s =>
    match w with
    | .statement =>
      -- parseStatement: dispatch on the current token
      match s.currentToken.ttype with
      | .LET => parseRun fuel (.letStatement) s
      | .RETURN => parseRun fuel (.returnStatement) s
      | _ => parseRun fuel (.expressionStatement) s
    | .letStatement =>
      -- parseLetStatement
      if s.peekToken.ttype = .IDENTIFIER then
        let s1 := pNext s
        let name := s1.currentToken.literal
        if s1.peekToken.ttype = .ASSIGN then
          let s2 := pNext (pNext s1)
          match parseRun fuel (.expression LOWEST) s2 with
          | .expr value s3 =>
            let s4 := if s3.peekToken.ttype = .SEMICOLON then pNext s3 else s3
            .stmt (some (.LetStatement name value)) s4
          | r => .stmt none r.state
        else .stmt none (peekError (.ASSIGN) s1)
      else .stmt none (peekError (.IDENTIFIER) s)
    | .returnStatement =>
      -- parseReturnStatement
      let s1 := pNext s
      match parseRun fuel (.expression LOWEST) s1 with
      | .expr value s2 =>
        let s3 := if s2.peekToken.ttype = .SEMICOLON then pNext s2 else s2
        .stmt (some (.ReturnStatement value)) s3
      | r => .stmt none r.state
    | .expressionStatement =>
      -- parseExpressionStatement (the trailing semicolon is optional)
      match parseRun fuel (.expression LOWEST) s with
      | .expr value s2 =>
        let s3 := if s2.peekToken.ttype = .SEMICOLON then pNext s2 else s2
        .stmt (some (.ExpressionStatement value)) s3
      | r => .stmt none r.state
    | .expression prec =>
      -- parseExpression: prefix dispatch (an unregistered token records
      -- the no-prefix-parse-function error and yields nil), then the
      -- Pratt loop
      if s.currentToken.ttype ∈ registeredPrefixFns then
        match parseRun fuel (.prefixDispatch) s with
        | .expr left s1 => parseRun fuel (.expressionLoop prec left) s1
        | r => .expr none r.state
      else .expr none (noPrefixParseError s.currentToken.ttype s)
    | .prefixDispatch =>
      -- the prefix dispatch table built by New, applied to the current
      -- token
      match s.currentToken.ttype with
      | .IDENTIFIER => .expr (some (.Identifier s.currentToken.literal)) s
      | .INTEGER =>
        match parseIntegerLiteral s with
        | (e, s1) => .expr e s1
      | .NOPE => parseRun fuel (.prefixOperator) s
      | .MINUS => parseRun fuel (.prefixOperator) s
      | .TRUE => .expr (some (.Boolean true)) s
      | .FALSE => .expr (some (.Boolean false)) s
      | .LPAREN => parseRun fuel (.groupedExpression) s
      | .IF => parseRun fuel (.ifExpression) s
      | .FUNCTION => parseRun fuel (.functionLiteral) s
      | _ => .expr none s
    | .prefixOperator =>
      -- parsePrefixExpression: the operator literal, then the right
      -- operand at PREFIX precedence
      let op := s.currentToken.literal
      let s1 := pNext s
      match parseRun fuel (.expression PREFIX) s1 with
      | .expr right s2 => .expr (some (.PrefixExpression op right)) s2
      | r => .expr none r.state
    | .expressionLoop prec left =>
      -- the core Pratt loop of parseExpression: advance into the next
      -- infix while the peek token is not a semicolon, binds tighter
      -- than the caller, and has a registered infix handler
      if s.peekToken.ttype ≠ .SEMICOLON ∧ prec < peekPrecedence s then
        if s.peekToken.ttype ∈ registeredInfixFns then
          let s1 := pNext s
          match parseRun fuel (.infixDispatch left) s1 with
          | .expr left2 s2 => parseRun fuel (.expressionLoop prec left2) s2
          | r => .expr none r.state
        else .expr left s
      else .expr left s
    | .infixDispatch left =>
      -- the infix dispatch table built by New, applied to the current
      -- token with the already parsed left operand
      match s.currentToken.ttype with
      | .LPAREN => parseRun fuel (.callExpression left) s
      | _ => parseRun fuel (.infixOperator left) s
    | .infixOperator left =>
      -- parseInfixExpression: keep the operator and its precedence, then
      -- parse the right operand at that precedence (left-to-right
      -- associativity)
      let op := s.currentToken.literal
      let prec := currentPrecedence s
      let s1 := pNext s
      match parseRun fuel (.expression prec) s1 with
      | .expr right s2 => .expr (some (.InfixExpression op left right)) s2
      | r => .expr none r.state
    | .groupedExpression =>
      -- parseGroupedExpression
      let s1 := pNext s
      match parseRun fuel (.expression LOWEST) s1 with
      | .expr e s2 =>
        if s2.peekToken.ttype = .RPAREN then .expr e (pNext s2)
        else .expr none (peekError (.RPAREN) s2)
      | r => .expr none r.state
    | .ifExpression =>
      -- parseIfExpression: `if (` cond `)` block, optional `else` block
      if s.peekToken.ttype = .LPAREN then
        let s2 := pNext (pNext s)
        match parseRun fuel (.expression LOWEST) s2 with
        | .expr cond s3 =>
          if s3.peekToken.ttype = .RPAREN then
            let s4 := pNext s3
            if s4.peekToken.ttype = .LBRACE then
              let s5 := pNext s4
              match parseRun fuel (.blockStatement) s5 with
              | .stmts cons s6 =>
                if s6.peekToken.ttype = .ELSE then
                  let s7 := pNext s6
                  if s7.peekToken.ttype = .LBRACE then
                    let s8 := pNext s7
                    match parseRun fuel (.blockStatement) s8 with
                    | .stmts alt s9 =>
                      .expr (some (.IfExpression cond cons (some alt))) s9
                    | r => .expr none r.state
                  else .expr none (peekError (.LBRACE) s7)
                else .expr (some (.IfExpression cond cons none)) s6
              | r => .expr none r.state
            else .expr none (peekError (.LBRACE) s4)
          else .expr none (peekError (.RPAREN) s3)
        | r => .expr none r.state
      else .expr none (peekError (.LPAREN) s)
    | .blockStatement =>
      -- parseBlockStatement: statements until } or EOF
      parseRun fuel (.blockLoop) (pNext s)
    | .blockLoop =>
      if s.currentToken.ttype = .RBRACE ∨ s.currentToken.ttype = .EOF then
        .stmts [] s
      else
        match parseRun fuel (.statement) s with
        | .stmt stmt s1 =>
          match parseRun fuel (.blockLoop) (pNext s1) with
          | .stmts rest s2 =>
            .stmts (match stmt with
                    | some st => st :: rest
                    | none => rest) s2
          | r => .stmts [] r.state
        | r => .stmts [] r.state
    | .functionLiteral =>
      -- parseFunctionLiteral (a failed parameter list leaves the nil
      -- parameters, which evaluation treats as the empty list)
      if s.peekToken.ttype = .LPAREN then
        let s1 := pNext s
        match parseRun fuel (.functionParameters) s1 with
        | .names params s2 =>
          if s2.peekToken.ttype = .LBRACE then
            let s3 := pNext s2
            match parseRun fuel (.blockStatement) s3 with
            | .stmts body s4 => .expr (some (.FunctionLiteral params body)) s4
            | r => .expr none r.state
          else .expr none (peekError (.LBRACE) s2)
        | r => .expr none r.state
      else .expr none (peekError (.LPAREN) s)
    | .functionParameters =>
      -- parseFunctionParameters: empty, or identifiers separated by
      -- commas, closed by ) (a missing ) records its error and yields
      -- the nil list)
      if s.peekToken.ttype = .RPAREN then .names [] (pNext s)
      else
        let s1 := pNext s
        match parseRun fuel (.parameterRest [s1.currentToken.literal]) s1 with
        | .names params s2 =>
          if s2.peekToken.ttype = .RPAREN then .names params (pNext s2)
          else .names [] (peekError (.RPAREN) s2)
        | r => .names [] r.state
    | .parameterRest acc =>
      if s.peekToken.ttype = .COMMA then
        let s1 := pNext (pNext s)
        parseRun fuel (.parameterRest (acc ++ [s1.currentToken.literal])) s1
      else .names acc s
    | .callExpression left =>
      -- parseCallExpression: the left operand becomes the callee
      match parseRun fuel (.callArguments) s with
      | .exprs args s1 => .expr (some (.CallExpression left args)) s1
      | r => .expr none r.state
    | .callArguments =>
      -- parseCallArguments: empty, or expressions separated by commas,
      -- closed by ) (a missing ) records its error and yields the nil
      -- list)
      if s.peekToken.ttype = .RPAREN then .exprs [] (pNext s)
      else
        let s1 := pNext s
        match parseRun fuel (.expression LOWEST) s1 with
        | .expr a s2 =>
          match parseRun fuel (.argumentRest [a]) s2 with
          | .exprs args s3 =>
            if s3.peekToken.ttype = .RPAREN then .exprs args (pNext s3)
            else .exprs [] (peekError (.RPAREN) s3)
          | r => .exprs [] r.state
        | r => .exprs [] r.state
    | .argumentRest acc =>
      if s.peekToken.ttype = .COMMA then
        let s1 := pNext (pNext s)
        match parseRun fuel (.expression LOWEST) s1 with
        | .expr a s2 => parseRun fuel (.argumentRest (acc ++ [a])) s2
        | r => .exprs [] r.state
      else .exprs acc s
    | .programLoop =>
      -- ParseProgram: statements until EOF, skipping nil results
      if s.currentToken.ttype = .EOF then .stmts [] s
      else
        match parseRun fuel (.statement) s with
        | .stmt stmt s1 =>
          match parseRun fuel (.programLoop) (pNext s1) with
          | .stmts rest s2 =>
            .stmts (match stmt with
                    | some st => st :: rest
                    | none => rest) s2
          | r => .stmts [] r.state
        | r => .stmts [] r.state

/-- Lex and parse a source string: the Program statements plus the
collected parser errors. The fuel bounds the recursion depth of the
descent, which is at most the token count; the lexed token count is at
most the source length. -/
def parseJaba (source : String) : List Stmt × List String :=
  match parseRun (2 * source.length + 8) (.programLoop)
      (newParser (lexSource source)) with
  | .stmts stmts s => (stmts, s.errors)
  | r => ([], r.state.errors)

/-!
Concrete programs and denotations used by the claims.
-/

/-- The program `return if (true) { return 5; };` — a return statement
whose expression is a block-valued if that itself returns. -/
def progC1 : List Stmt :=
  [.ReturnStatement (some (.IfExpression (some (.Boolean true))
    [.ReturnStatement (some (.IntegerLiteral 5))] none))]

/-- The program `let f = fn(x) { fn(y) { x + y } }; f(a)(b)` with integer
literal arguments a and b. -/
def progC2 (a b : Int) : List Stmt :=
  [.LetStatement "f" (some (.FunctionLiteral ["x"]
     [.ExpressionStatement (some (.FunctionLiteral ["y"]
        [.ExpressionStatement (some (.InfixExpression "+"
           (some (.Identifier "x")) (some (.Identifier "y"))))]))])),
   .ExpressionStatement (some (.CallExpression
     (some (.CallExpression (some (.Identifier "f"))
        [some (.IntegerLiteral a)]))
     [some (.IntegerLiteral b)]))]

/-- The four arithmetic infix operators of the claim about arithmetic
trees. -/
inductive ArithOp where
  | add
  | sub
  | mul
  | divi
deriving DecidableEq

/-- The operator literal the parser stores for each arithmetic operator. -/
def ArithOp.lit : ArithOp → String
  | .add => "+"
  | .sub => "-"
  | .mul => "*"
  | .divi => "/"

/-- Arithmetic expression trees over integer literals and + - * /. -/
inductive ArithTree where
  | lit (value : Int)
  | node (op : ArithOp) (left right : ArithTree)

/-- The AST expression of an arithmetic tree. -/
def arithToExpr : ArithTree → Expr
  | .lit n => .IntegerLiteral n
  | .node op l r =>
    .InfixExpression op.lit (some (arithToExpr l)) (some (arithToExpr r))

/-- Node count of an arithmetic tree (a fuel bound for its evaluation). -/
def arithSize : ArithTree → Nat
  | .lit _ => 1
  | .node _ l r => arithSize l + arithSize r + 1

/-- Specification-side denotation of an arithmetic tree in int64
arithmetic: two's-complement wrap-around on + - *, truncation-toward-zero
division, and a divide-by-zero fault. This is the amended reading of the
claim's "standard integer arithmetic". -/
def denoteWrap : ArithTree → Except GoPanic Int
  | .lit n => .ok n
  | .node op l r =>
    match denoteWrap l with
    | .error p => .error p
    | .ok a =>
      match denoteWrap r with
      | .error p => .error p
      | .ok b =>
        match op with
        | .add => .ok (wrap64 (a + b))
        | .sub => .ok (wrap64 (a - b))
        | .mul => .ok (wrap64 (a * b))
        | .divi =>
          if b = 0 then .error (.divideByZero)
          else .ok (wrap64 (Int.tdiv a b))

/-- Specification-side denotation in unbounded standard integer
arithmetic (truncated division), the claim's literal reading; division by
zero is the only fault. -/
def denoteStd : ArithTree → Except GoPanic Int
  | .lit n => .ok n
  | .node op l r =>
    match denoteStd l with
    | .error p => .error p
    | .ok a =>
      match denoteStd r with
      | .error p => .error p
      | .ok b =>
        match op with
        | .add => .ok (a + b)
        | .sub => .ok (a - b)
        | .mul => .ok (a * b)
        | .divi =>
          if b = 0 then .error (.divideByZero) else .ok (Int.tdiv a b)

/-- Whether an integer fits in int64. -/
def inInt64 (n : Int) : Prop :=
  -9223372036854775808 ≤ n ∧ n < 9223372036854775808

instance (n : Int) : Decidable (inInt64 n) := by
  unfold inInt64
  exact inferInstance

/-- Every intermediate result of the standard denotation (every literal
and every operator result) fits in int64, and no division by zero
occurs. -/
def stdInRange : ArithTree → Prop
  | .lit n => inInt64 n
  | .node op l r =>
    stdInRange l ∧ stdInRange r ∧
      match denoteStd (.node op l r) with
      | .ok n => inInt64 n
      | .error _ => False

/-- The Res an arithmetic denotation predicts: the integer object with an
unchanged store, or the panic. -/
def denoteRes (d : Except GoPanic Int) (store : Store) : Res :=
  match d with
  | .ok n => .ok (some (.Integer n)) store
  | .error p => .panic p

/-!
Theorems. Shared helper lemmas first, then one theorem per claim (with
its witness or counterexample where required).
-/

/-- wrap64 is the identity on int64-range values. -/
theorem wrap64_eq_of_inInt64 {n : Int} (h : inInt64 n) : wrap64 n = n := by
  unfold inInt64 at h
  unfold wrap64
  omega

/-- isError holds exactly on object.Error values. -/
theorem isError_iff {v : Option Object} :
    isError v = true ↔ ∃ m, v = some (.Error m) := by
  cases v with
  | none => simp [isError]
  | some o => cases o <;> simp [isError]

/-- Claim C6: only the false and null singletons are falsey; every other
value — Integer 0 and the empty string included — is truthy, for both
if-conditions (isTruthy) and the ! operator, so !true = false,
!false = true, !null = true, !v = false for every other v, and in
particular !0 = false, !!0 = true and !"" = false. -/
theorem C6_truthiness :
    (∀ v : Option Object,
      isTruthy v = false ↔ (v = some FALSE ∨ v = some NULL)) ∧
    evalNopePrefixOperatorExpression (some TRUE) = FALSE ∧
    evalNopePrefixOperatorExpression (some FALSE) = TRUE ∧
    evalNopePrefixOperatorExpression (some NULL) = TRUE ∧
    (∀ v : Option Object, v ≠ some TRUE → v ≠ some FALSE → v ≠ some NULL →
      evalNopePrefixOperatorExpression v = FALSE) ∧
    resultValue (evalProgramJaba 10
      [.ExpressionStatement (some (.PrefixExpression "!"
        (some (.IntegerLiteral 0))))]) = some (some FALSE) ∧
    resultValue (evalProgramJaba 10
      [.ExpressionStatement (some (.PrefixExpression "!"
        (some (.PrefixExpression "!" (some (.IntegerLiteral 0))))))]) =
      some (some TRUE) ∧
    resultValue (evalProgramJaba 10
      [.ExpressionStatement (some (.PrefixExpression "!"
        (some (.StringLiteral ""))))]) = some (some FALSE) := by
  refine ⟨?_, rfl, rfl, rfl, ?_, rfl, rfl, rfl⟩
  · intro v
    cases v with
    | none => simp [isTruthy, FALSE, NULL]
    | some o =>
      cases o <;> simp [isTruthy, FALSE, NULL]
  · intro v h1 h2 h3
    cases v with
    | none => rfl
    | some o =>
      cases o <;> try rfl
      case Boolean b =>
        cases b with
        | true => exact absurd rfl h1
        | false => exact absurd rfl h2
      case Null => exact absurd rfl h3

/-- Witness for C6 at a concrete input: Integer 0 is truthy under !. -/
theorem C6_truthiness_witness :
    evalNopePrefixOperatorExpression (some (.Integer 0)) = FALSE :=
  C6_truthiness.2.2.2.2.1 (some (.Integer 0)) (by simp [TRUE])
    (by simp [FALSE]) (by simp [NULL])

/-- Claim C7, settled against the code: the lexer of this snapshot has no
case for '[', ']' or ':' in NextToken and token.go declares no token type
for them, so each of these bytes falls through to the default branch and
is lexed as ILLEGAL with the byte as its literal — not as a single-char
operator token as the claim (and the snapshot's own parser and evaluator
tests, which lex array and hash syntax) requires. -/
theorem C7_bracket_colon_illegal :
    lexSource ("[]:") =
      [⟨.ILLEGAL, "["⟩, ⟨.ILLEGAL, "]"⟩, ⟨.ILLEGAL, ":"⟩, eofToken] ∧
    nextToken (['[']) = (⟨.ILLEGAL, "["⟩, []) ∧
    nextToken ([']']) = (⟨.ILLEGAL, "]"⟩, []) ∧
    nextToken ([':']) = (⟨.ILLEGAL, ":"⟩, []) := by
  exact ⟨rfl, rfl, rfl, rfl⟩

/-- Claim C8, settled against the code: the parser of this snapshot
registers no prefix handler for STRING or '{' (and no token type for '['
exists at all), so parsing "[1, 2][0]" or a hash literal records
no-prefix-parse-function errors instead of producing
ArrayLiteral/IndexExpression/HashLiteral nodes with an empty error
list. -/
theorem C8_no_bracket_handlers :
    (parseJaba ("[1, 2][0]")).2 =
      ["no prefix parse function for ILLEGAL found",
       "no prefix parse function for , found",
       "no prefix parse function for ILLEGAL found",
       "no prefix parse function for ILLEGAL found",
       "no prefix parse function for ILLEGAL found"] ∧
    (parseJaba ("\x7b\"a\": 1\x7d")).2 =
      ["no prefix parse function for \x7b found",
       "no prefix parse function for STRING found",
       "no prefix parse function for ILLEGAL found",
       "no prefix parse function for \x7d found"] ∧
    TokenType.STRING ∉ registeredPrefixFns ∧
    TokenType.LBRACE ∉ registeredPrefixFns ∧
    TokenType.STRING ∉ registeredInfixFns := by
  refine ⟨rfl, rfl, ?_, ?_, ?_⟩ <;> decide

/-- Claim C9: extendFunctionEnv binds parameters by indexing the argument
list with no guard: binding succeeds whenever there are at least as many
arguments as parameters, a missing argument is an index-out-of-range
fault, and an arity-mismatched call of a user function panics instead of
producing an object.Error value (shown on `fn(x){ x }()`). -/
theorem C9_arity_unguarded :
    (∀ (params : List String) (args : List (Option Object)) (ref : Nat)
      (st : Store), params.length ≤ args.length →
        ∃ st2, setParams params args ref st = .ok st2) ∧
    (∀ (params : List String) (args : List (Option Object)) (ref : Nat)
      (st : Store), args.length < params.length →
        setParams params args ref st = .error (.indexOutOfRange)) ∧
    resultPanic (evalProgramJaba 10
      [.ExpressionStatement (some (.CallExpression
        (some (.FunctionLiteral ["x"]
          [.ExpressionStatement (some (.Identifier "x"))])) []))]) =
      some (.indexOutOfRange) ∧
    resultValue (evalProgramJaba 10
      [.ExpressionStatement (some (.CallExpression
        (some (.FunctionLiteral ["x"]
          [.ExpressionStatement (some (.Identifier "x"))])) []))]) =
      none := by
  refine ⟨?_, ?_, rfl, rfl⟩
  · intro params
    induction params with
    | nil => exact fun args ref st _ => ⟨st, rfl⟩
    | cons p ps ih =>
      intro args ref st h
      cases args with
      | nil => simp at h
      | cons a rest =>
        simp only [List.length_cons] at h
        exact ih rest ref (envSet st ref p a) (Nat.le_of_succ_le_succ h)
  · intro params
    induction params with
    | nil => intro args ref st h; simp at h
    | cons p ps ih =>
      intro args ref st h
      cases args with
      | nil => rfl
      | cons a rest =>
        simp only [List.length_cons] at h
        exact ih rest ref (envSet st ref p a) (Nat.lt_of_succ_lt_succ h)

/-- Witness for C9 at a concrete input: one parameter, no argument. -/
theorem C9_arity_unguarded_witness :
    setParams (["x"]) [] 0 [⟨[], none⟩] = .error (.indexOutOfRange) :=
  C9_arity_unguarded.2.1 (["x"]) [] 0 [⟨[], none⟩] (by decide)

/-- Claim C10: the division branch of evalIntegerInfixExpression is
unguarded: with a zero right operand it faults (shown end-to-end on
`5 / 0`, which panics instead of returning an object.Error); with a
nonzero right operand it returns the int64 quotient, which equals the
truncated quotient for all int64 operands except the wrapping pair
(minInt64, -1). -/
theorem C10_division_unguarded :
    (∀ a b : Int, b ≠ 0 →
      evalIntegerInfixExpression "/" (.Integer a) (.Integer b) =
        .ok (.Integer (wrap64 (Int.tdiv a b)))) ∧
    (∀ a : Int,
      evalIntegerInfixExpression "/" (.Integer a) (.Integer 0) =
        .error (.divideByZero)) ∧
    (∀ a b : Int, b ≠ 0 → inInt64 a → inInt64 b →
      ¬(a = -9223372036854775808 ∧ b = -1) →
      wrap64 (Int.tdiv a b) = Int.tdiv a b) ∧
    resultPanic (evalProgramJaba 10
      [.ExpressionStatement (some (.InfixExpression "/"
        (some (.IntegerLiteral 5)) (some (.IntegerLiteral 0))))]) =
      some (.divideByZero) ∧
    resultValue (evalProgramJaba 10
      [.ExpressionStatement (some (.InfixExpression "/"
        (some (.IntegerLiteral 5)) (some (.IntegerLiteral 0))))]) =
      none := by
  refine ⟨?_, fun a => rfl, ?_, rfl, rfl⟩
  · intro a b hb
    simp [evalIntegerInfixExpression, hb]
  · intro a b hb ha hbr hmin
    have habs : (Int.tdiv a b).natAbs = a.natAbs / b.natAbs := by
      rw [Int.natAbs_tdiv]
      rfl
    apply wrap64_eq_of_inInt64
    unfold inInt64 at ha hbr ⊢
    by_cases hA : a = -9223372036854775808
    · subst hA
      by_cases hB : b = 1
      · subst hB
        rw [Int.tdiv_one]
        omega
      · have hBneg : b ≠ -1 := fun h => hmin ⟨rfl, h⟩
        have hb2 : 2 ≤ b.natAbs := by omega
        have hdle : (-9223372036854775808 : Int).natAbs / b.natAbs ≤
            (-9223372036854775808 : Int).natAbs / 2 :=
          Nat.div_le_div_left hb2 (by omega)
        omega
    · have h1 : a.natAbs ≤ 9223372036854775807 := by omega
      have h2 : (Int.tdiv a b).natAbs ≤ a.natAbs := by
        rw [habs]; exact Nat.div_le_self _ _
      omega

/-- Witness for C10 at a concrete input: 7 / 2. -/
theorem C10_division_unguarded_witness :
    evalIntegerInfixExpression "/" (.Integer 7) (.Integer 2) =
      .ok (.Integer (wrap64 (Int.tdiv 7 2))) :=
  C10_division_unguarded.1 7 2 (by decide)

/-- Counterexample to claim C4 as stated: `"a" == "b"` reaches the
reference-equality branch of evalInfixExpression before the string
branch and evaluates to the Boolean false — not to
Error("unknown operation: STRING == STRING") as the claim asserts for
every non-+ operator on two strings. -/
theorem C4_string_equality_counterexample :
    resultValue (evalProgramJaba 10
      [.ExpressionStatement (some (.InfixExpression "=="
        (some (.StringLiteral "a")) (some (.StringLiteral "b"))))]) =
      some (some (.Boolean false)) ∧
    (∀ msg : String, Object.Boolean false ≠ .Error msg) := by
  exact ⟨rfl, fun msg h => Object.noConfusion h⟩

/-- Claim C4 as amended: on two String operands every operator other
than +, == and != yields Error("unknown operation: STRING <op> STRING")
(in particular `"a" - "b"` does); + concatenates; == and != are
intercepted by the earlier reference-equality branch of
evalInfixExpression and return a Boolean — false resp. true for the
distinct fresh allocations produced by evaluating two string literals,
even with equal contents (shown on `"a" == "a"`). -/
theorem C4_string_infix_amended :
    (∀ (op : String) (a b : String), op ≠ "+" → op ≠ "==" → op ≠ "!=" →
      evalInfixExpression op (some (.String a)) (some (.String b)) =
        .ok (newError ("unknown operation: STRING " ++ op ++ " STRING"))) ∧
    (∀ a b : String,
      evalInfixExpression "+" (some (.String a)) (some (.String b)) =
        .ok (.String (a ++ b))) ∧
    (∀ a b : String,
      evalInfixExpression "==" (some (.String a)) (some (.String b)) =
        .ok (nativeBooleanToBooleanObject
          (goInterfaceEq (some (.String a)) (some (.String b)))) ∧
      goInterfaceEq (some (.String a)) (some (.String b)) = false) ∧
    resultValue (evalProgramJaba 10
      [.ExpressionStatement (some (.InfixExpression "=="
        (some (.StringLiteral "a")) (some (.StringLiteral "a"))))]) =
      some (some (.Boolean false)) ∧
    resultValue (evalProgramJaba 10
      [.ExpressionStatement (some (.InfixExpression "!="
        (some (.StringLiteral "a")) (some (.StringLiteral "a"))))]) =
      some (some (.Boolean true)) ∧
    resultValue (evalProgramJaba 10
      [.ExpressionStatement (some (.InfixExpression "-"
        (some (.StringLiteral "a")) (some (.StringLiteral "b"))))]) =
      some (some (.Error "unknown operation: STRING - STRING")) := by
  refine ⟨?_, fun a b => rfl, fun a b => ⟨rfl, rfl⟩, rfl, rfl, rfl⟩
  intro op a b h1 h2 h3
  show evalInfixExpression op (some (.String a)) (some (.String b)) =
    .ok (newError ("unknown operation: STRING " ++ op ++ " STRING"))
  have : evalInfixExpression op (some (.String a)) (some (.String b)) =
      evalStringInfixExpression op (.String a) (.String b) := by
    simp [evalInfixExpression, objectType, INTEGER_OBJECT, STRING_OBJECT,
      h2, h3]
  rw [this]
  simp [evalStringInfixExpression, h1, objectType, STRING_OBJECT, newError]
  rw [String.append_assoc, String.append_assoc]
  rfl

/-- Witness for C4 at a concrete input: the minus operator on two
strings. -/
theorem C4_string_infix_witness :
    evalInfixExpression "-" (some (.String "a")) (some (.String "b")) =
      .ok (newError ("unknown operation: STRING " ++ "-" ++ " STRING")) :=
  C4_string_infix_amended.1 ("-") ("a") ("b") (by decide) (by decide)
    (by decide)

/-- All keys of an accumulated hash-pair list are hashable. -/
def allKeysHashable (prs : List (HashKey × Object × Option Object)) : Prop :=
  ∀ p ∈ prs, (hashKeyOf p.2.1).isSome = true

/-- hashInsert preserves hashability of all stored keys. -/
theorem allKeysHashable_hashInsert {acc : List (HashKey × Object × Option Object)}
    {hk : HashKey} {k : Object} {v : Option Object}
    (hacc : allKeysHashable acc) (hkey : (hashKeyOf k).isSome = true) :
    allKeysHashable (hashInsert acc hk (k, v)) := by
  induction acc with
  | nil =>
    intro p hp
    simp [hashInsert] at hp
    subst hp
    exact hkey
  | cons q rest ih =>
    intro p hp
    have hq := hacc q (by simp)
    have hrest : allKeysHashable rest := fun r hr => hacc r (by simp [hr])
    simp only [hashInsert] at hp
    by_cases hqk : q.1 = hk
    · rw [if_pos hqk] at hp
      simp at hp
      rcases hp with h | h
      · subst h; exact hkey
      · exact hacc p (by simp [h])
    · rw [if_neg hqk] at hp
      simp at hp
      rcases hp with h | h
      · subst h; exact hq
      · exact ih hrest p h

/-- The hash-literal loop only ever produces Hash objects whose stored
keys are all hashable, given a hashable accumulator. -/
theorem hashLoop_keys_hashable :
    ∀ (fuel : Nat) (ps : List (Option Expr × Option Expr))
      (acc : List (HashKey × Object × Option Object)) (env : Nat)
      (st : Store) (prs : List (HashKey × Object × Option Object))
      (st2 : Store),
      allKeysHashable acc →
      run fuel (.hashLoop ps acc env) st = .val (some (.Hash prs)) st2 →
      allKeysHashable prs := by
  intro fuel
  induction fuel with
  | zero => intro ps acc env st prs st2 _ h; exact absurd h (by simp [run])
  | succ f ih =>
    intro ps acc env st prs st2 hacc h
    match ps with
    | [] =>
      simp only [run, RRes.val.injEq, Option.some.injEq, Object.Hash.injEq]
        at h
      exact h.1 ▸ hacc
    | (keyNode, valueNode) :: rest =>
      simp only [run] at h
      split at h
      · rename_i kv store2 _heq
        by_cases he : isError kv = true
        · rw [if_pos he] at h
          rcases isError_iff.mp he with ⟨m, rfl⟩
          simp at h
        · rw [if_neg he] at h
          split at h
          · simp at h
          · rename_i k
            split at h
            · simp [newError] at h
            · rename_i hk hko
              split at h
              · rename_i vv store3 _hveq
                by_cases hev : isError vv = true
                · rw [if_pos hev] at h
                  rcases isError_iff.mp hev with ⟨m, rfl⟩
                  simp at h
                · rw [if_neg hev] at h
                  exact ih rest (hashInsert acc hk (k, vv)) env store3 prs
                    st2 (allKeysHashable_hashInsert hacc (by simp [hko])) h
              · simp at h
              · simp at h
              · simp at h
      · simp at h
      · simp at h
      · simp at h

/-- Inversion of the single-value projection. -/
theorem toRes_eq_ok {r : RRes} {v : Option Object} {st : Store}
    (h : toRes r = .ok v st) : r = .val v st := by
  cases r <;> simp [toRes] at h ⊢
  exact ⟨h.1, h.2⟩

/-- Counterexample to claim C5 as stated: evaluating the hash literal
`{[1]: 1}` yields the construction-time error message
"unable to hash key:  ARRAY" (sic, with two spaces), not
"unusable as hash key: ARRAY" as the claim asserts. -/
theorem C5_hash_message_counterexample :
    resultValue (evalProgramJaba 10
      [.ExpressionStatement (some (.HashLiteral
        [(some (.ArrayLiteral [some (.IntegerLiteral 1)]),
          some (.IntegerLiteral 1))]))]) =
      some (some (.Error "unable to hash key:  ARRAY")) ∧
    "unable to hash key:  ARRAY" ≠ "unusable as hash key: ARRAY" :=
  ⟨rfl, by decide⟩

/-- Claim C5 as amended: a constructed Hash only ever contains hashable
keys (integer, boolean, string); a hash literal whose key evaluates to an
unhashable value yields Error("unable to hash key:  <TYPE>") — the
construction-time message of the source, with its double space — while
indexing a hash with an unhashable key yields
Error("unusable as hash key: <TYPE>"); `{[1]:1}` yields the former with
TYPE = ARRAY, `{true:1}[true]` is 1, and a lookup miss yields Null. -/
theorem C5_hash_keys_amended :
    (∀ (fuel : Nat) (pairs : List (Option Expr × Option Expr)) (env : Nat)
      (st : Store) (prs : List (HashKey × Object × Option Object))
      (st2 : Store),
      evalHashLiteral fuel pairs env st = .ok (some (.Hash prs)) st2 →
      allKeysHashable prs) ∧
    (∀ (fuel : Nat) (keyNode : Expr) (valueNode : Option Expr)
      (rest : List (Option Expr × Option Expr)) (env : Nat) (st : Store)
      (k : Object) (st2 : Store),
      evalExpr fuel keyNode env st = .ok (some k) st2 →
      isError (some k) = false →
      hashKeyOf k = none →
      evalHashLiteral (fuel + 1) ((some keyNode, valueNode) :: rest) env st =
        .ok (some (newError ("unable to hash key:  " ++ objectType k)))
          st2) ∧
    (∀ (prs : List (HashKey × Object × Option Object)) (idx : Object),
      hashKeyOf idx = none →
      evalHashIndexExpression (.Hash prs) (some idx) =
        .ok (some (newError ("unusable as hash key: " ++ objectType idx)))) ∧
    (∀ (prs : List (HashKey × Object × Option Object)) (idx : Object)
      (hk : HashKey), hashKeyOf idx = some hk → hashLookup prs hk = none →
      evalHashIndexExpression (.Hash prs) (some idx) = .ok (some NULL)) ∧
    resultValue (evalProgramJaba 10
      [.ExpressionStatement (some (.IndexExpression
        (some (.HashLiteral [(some (.Boolean true),
          some (.IntegerLiteral 1))]))
        (some (.Boolean true))))]) = some (some (.Integer 1)) ∧
    resultValue (evalProgramJaba 10
      [.ExpressionStatement (some (.HashLiteral
        [(some (.ArrayLiteral [some (.IntegerLiteral 1)]),
          some (.IntegerLiteral 1))]))]) =
      some (some (.Error "unable to hash key:  ARRAY")) := by
  refine ⟨?_, ?_, ?_, ?_, rfl, rfl⟩
  · intro fuel pairs env st prs st2 h
    unfold evalHashLiteral at h
    exact hashLoop_keys_hashable fuel pairs [] env st prs st2
      (by intro p hp; simp at hp) (toRes_eq_ok h)
  · intro fuel keyNode valueNode rest env st k st2 hkey herr hko
    unfold evalExpr at hkey
    have hrun := toRes_eq_ok hkey
    unfold evalHashLiteral
    simp only [run, hrun, herr, hko]
    rfl
  · intro prs idx h
    simp [evalHashIndexExpression, h]
  · intro prs idx hk h1 h2
    simp [evalHashIndexExpression, h1, h2]

/-- Witness for C5 at a concrete input: indexing a hash with an array
key. -/
theorem C5_hash_keys_witness :
    evalHashIndexExpression (.Hash []) (some (.Array [])) =
      .ok (some (newError ("unusable as hash key: " ++
        objectType (.Array [])))) :=
  C5_hash_keys_amended.2.2.1 [] (.Array []) rfl

/-- Inversion of the single-value projection at a panic. -/
theorem toRes_eq_panic {r : RRes} {p : GoPanic}
    (h : toRes r = .panic p) : r = .panic p := by
  cases r <;> simp [toRes] at h ⊢
  exact h

/-- Counterexample to claim C1 as stated: the parseable program
`return if (true) { return 5; };` double-wraps — the block propagates
ReturnValue(5) still wrapped, the outer return wraps it again, and
evalProgram unwraps only one layer — so the final result of eval(Program)
is the ReturnValue sentinel ReturnValue(Integer 5). -/
theorem C1_returnvalue_escapes :
    parseJaba ("return if (true) { return 5; };") = (progC1, []) ∧
    resultValue (evalProgramJaba 10 progC1) =
      some (some (.ReturnValue (some (.Integer 5)))) :=
  ⟨rfl, rfl⟩

/-- Claim C1 as amended: evalProgram short-circuits on the first
statement yielding an Error and returns it, and on the first statement
yielding a ReturnValue returns the inner value (exactly one layer
unwrapped); block evaluation propagates a ReturnValue still wrapped and
an Error the same way; consequently the final result is never a
ReturnValue unless a return statement's own expression evaluates to a
wrapped ReturnValue (a block-valued expression containing return), as in
`return if (true) { return 5; };`, whose final result is
ReturnValue(Integer 5). -/
theorem C1_propagation_amended :
    (∀ (fuel : Nat) (s : Stmt) (rest : List Stmt) (env : Nat) (st : Store)
      (e : String) (st2 : Store),
      evalStmt fuel s env st = .ok (some (.Error e)) st2 →
      evalProgram (fuel + 1) (s :: rest) env st =
        .ok (some (.Error e)) st2) ∧
    (∀ (fuel : Nat) (s : Stmt) (rest : List Stmt) (env : Nat) (st : Store)
      (v : Option Object) (st2 : Store),
      evalStmt fuel s env st = .ok (some (.ReturnValue v)) st2 →
      evalProgram (fuel + 1) (s :: rest) env st = .ok v st2) ∧
    (∀ (fuel : Nat) (s : Stmt) (rest : List Stmt) (env : Nat) (st : Store)
      (v : Option Object) (st2 : Store),
      evalStmt fuel s env st = .ok (some (.ReturnValue v)) st2 →
      evalBlockStatements (fuel + 1) (s :: rest) env st =
        .ok (some (.ReturnValue v)) st2) ∧
    (∀ (fuel : Nat) (s : Stmt) (rest : List Stmt) (env : Nat) (st : Store)
      (e : String) (st2 : Store),
      evalStmt fuel s env st = .ok (some (.Error e)) st2 →
      evalBlockStatements (fuel + 1) (s :: rest) env st =
        .ok (some (.Error e)) st2) ∧
    resultValue (evalProgramJaba 10 progC1) =
      some (some (.ReturnValue (some (.Integer 5)))) := by
  refine ⟨?_, ?_, ?_, ?_, rfl⟩
  · intro fuel s rest env st e st2 h
    have hr := toRes_eq_ok (r := run fuel (.stmt s env) st) h
    unfold evalProgram
    simp only [run, hr]
    rfl
  · intro fuel s rest env st v st2 h
    have hr := toRes_eq_ok (r := run fuel (.stmt s env) st) h
    unfold evalProgram
    simp only [run, hr]
    rfl
  · intro fuel s rest env st v st2 h
    have hr := toRes_eq_ok (r := run fuel (.stmt s env) st) h
    unfold evalBlockStatements
    simp only [run, hr]
    rfl
  · intro fuel s rest env st e st2 h
    have hr := toRes_eq_ok (r := run fuel (.stmt s env) st) h
    unfold evalBlockStatements
    simp only [run, hr]
    rfl

/-- Witness for C1 at a concrete input: a return statement followed by
another statement. -/
theorem C1_propagation_witness :
    evalProgram 6 [.ReturnStatement (some (.IntegerLiteral 7)),
      .ExpressionStatement (some (.IntegerLiteral 1))] 0 [⟨[], none⟩] =
      .ok (some (.Integer 7)) [⟨[], none⟩] :=
  C1_propagation_amended.2.1 5 (.ReturnStatement (some (.IntegerLiteral 7)))
    [.ExpressionStatement (some (.IntegerLiteral 1))] 0 [⟨[], none⟩]
    (some (.Integer 7)) [⟨[], none⟩] rfl

/-- Claim C2: calling a Function value allocates a child environment
whose outer pointer is the closure's captured (definition-site)
environment, binds parameters positionally, evaluates the body as a
block and unwraps exactly one ReturnValue layer; identifier lookup walks
the outer chain; consequently `let f = fn(x){ fn(y){ x+y } }; f(a)(b)`
evaluates to Integer(a+b) — the sum in the int64 arithmetic of the
language, which is the mathematical a+b whenever that fits in int64. -/
theorem C2_closure_application :
    (∀ a b : Int, resultValue (evalProgramJaba 20 (progC2 a b)) =
      some (some (.Integer (wrap64 (a + b))))) ∧
    (∀ a b : Int, inInt64 (a + b) →
      resultValue (evalProgramJaba 20 (progC2 a b)) =
        some (some (.Integer (a + b)))) ∧
    parseJaba ("let f = fn(x) { fn(y) { x + y } }; f(2)(3)") =
      (progC2 2 3, []) ∧
    (∀ (fnEnv : Nat) (st : Store),
      newEnclosedEnvironment fnEnv st =
        (st.length, st ++ [⟨[], some fnEnv⟩])) ∧
    (∀ (st : Store) (ref : Nat) (key : String) (frame : Frame) (o : Nat)
      (fuel : Nat),
      st[ref]? = some frame → frameLookup frame.store key = none →
      frame.outer = some o →
      envGetAux (fuel + 1) st ref key = envGetAux fuel st o key) ∧
    (∀ (st : Store) (ref : Nat) (key : String) (frame : Frame)
      (v : Option Object),
      st[ref]? = some frame → frameLookup frame.store key = some v →
      envGet st ref key = some v) ∧
    (∀ v : Option Object, unwrapReturnValue (some (.ReturnValue v)) = v) := by
  have h1 : ∀ a b : Int, resultValue (evalProgramJaba 20 (progC2 a b)) =
      some (some (.Integer (wrap64 (a + b)))) := fun a b => rfl
  refine ⟨h1, ?_, rfl, fun fnEnv st => rfl, ?_, ?_, fun v => rfl⟩
  · intro a b h
    rw [h1 a b, wrap64_eq_of_inInt64 h]
  · intro st ref key frame o fuel hframe hmiss houter
    simp [envGetAux, hframe, hmiss, houter]
  · intro st ref key frame v hframe hhit
    simp [envGet, envGetAux, hframe, hhit]

/-- Witness for C2 at a concrete input: f(2)(3) = 5. -/
theorem C2_closure_application_witness :
    resultValue (evalProgramJaba 20 (progC2 2 3)) =
      some (some (.Integer (2 + 3))) :=
  C2_closure_application.2.1 2 3 (by decide)

/-- Arithmetic trees have at least one node. -/
theorem arithSize_pos : ∀ t : ArithTree, 1 ≤ arithSize t
  | .lit _ => Nat.le_refl 1
  | .node _ l _ => by
    unfold arithSize
    omega

/-- The evaluator on an arithmetic tree computes its int64 denotation
(with the store untouched): the core induction behind C3. -/
theorem run_arith : ∀ (t : ArithTree) (fuel : Nat) (env : Nat) (st : Store),
    arithSize t < fuel →
    run fuel (.expr (arithToExpr t) env) st =
      (match denoteWrap t with
       | .ok n => RRes.val (some (.Integer n)) st
       | .error p => RRes.panic p) := by
  intro t
  induction t with
  | lit n =>
    intro fuel env st h
    cases fuel with
    | zero => simp [arithSize] at h
    | succ f => rfl
  | node op l r ihl ihr =>
    intro fuel env st h
    cases fuel with
    | zero => simp [arithSize] at h
    | succ f =>
      have hpl := arithSize_pos l
      have hpr := arithSize_pos r
      have hsl : arithSize l < f := by simp [arithSize] at h; omega
      have hsr : arithSize r < f := by simp [arithSize] at h; omega
      have Hl := ihl f env st hsl
      have Hr := ihr f env st hsr
      simp only [arithToExpr, run, Hl]
      cases hdl : denoteWrap l with
      | error p => simp [denoteWrap, hdl]
      | ok a =>
        simp only [isError]
        rw [Hr]
        cases hdr : denoteWrap r with
        | error p => simp [denoteWrap, hdl, hdr]
        | ok b =>
          simp only [isError]
          cases op with
          | add => simp [denoteWrap, hdl, hdr, ArithOp.lit,
              evalInfixExpression, evalIntegerInfixExpression, objectType,
              INTEGER_OBJECT]
          | sub => simp [denoteWrap, hdl, hdr, ArithOp.lit,
              evalInfixExpression, evalIntegerInfixExpression, objectType,
              INTEGER_OBJECT]
          | mul => simp [denoteWrap, hdl, hdr, ArithOp.lit,
              evalInfixExpression, evalIntegerInfixExpression, objectType,
              INTEGER_OBJECT]
          | divi =>
            by_cases hb : b = 0
            · simp [denoteWrap, hdl, hdr, ArithOp.lit, hb,
                evalInfixExpression, evalIntegerInfixExpression, objectType,
                INTEGER_OBJECT]
            · simp [denoteWrap, hdl, hdr, ArithOp.lit, hb,
                evalInfixExpression, evalIntegerInfixExpression, objectType,
                INTEGER_OBJECT]

/-- When every intermediate standard result fits in int64 and no
division by zero occurs, the int64 denotation agrees with the standard
one. -/
theorem denoteWrap_eq_denoteStd :
    ∀ t : ArithTree, stdInRange t → denoteWrap t = denoteStd t := by
  intro t
  induction t with
  | lit n => intro _; rfl
  | node op l r ihl ihr =>
    intro h
    unfold stdInRange at h
    obtain ⟨h1, h2, h3⟩ := h
    have Hl := ihl h1
    have Hr := ihr h2
    revert h3
    unfold denoteWrap denoteStd
    rw [Hl, Hr]
    cases hdl : denoteStd l with
    | error p => intro h3; rfl
    | ok a =>
      cases hdr : denoteStd r with
      | error p => intro h3; rfl
      | ok b =>
        cases op with
        | add =>
          intro h3
          simp at h3
          simp [wrap64_eq_of_inInt64 h3]
        | sub =>
          intro h3
          simp at h3
          simp [wrap64_eq_of_inInt64 h3]
        | mul =>
          intro h3
          simp at h3
          simp [wrap64_eq_of_inInt64 h3]
        | divi =>
          intro h3
          by_cases hb : b = 0
          · simp [hb] at h3
          · simp [hb] at h3
            simp [hb, wrap64_eq_of_inInt64 h3]

/-- Counterexample to claim C3 as stated: the parsed program
`4611686018427387904 * 2` evaluates to Integer(-9223372036854775808)
because Go int64 multiplication wraps, while standard integer arithmetic
gives 9223372036854775808. -/
theorem C3_overflow_counterexample :
    parseJaba ("4611686018427387904 * 2") =
      ([.ExpressionStatement (some (.InfixExpression "*"
        (some (.IntegerLiteral 4611686018427387904))
        (some (.IntegerLiteral 2))))], []) ∧
    resultValue (evalProgramJaba 10
      [.ExpressionStatement (some (.InfixExpression "*"
        (some (.IntegerLiteral 4611686018427387904))
        (some (.IntegerLiteral 2))))]) =
      some (some (.Integer (-9223372036854775808))) ∧
    (4611686018427387904 * 2 : Int) = 9223372036854775808 ∧
    (-9223372036854775808 : Int) ≠ 9223372036854775808 :=
  ⟨rfl, rfl, by decide, by decide⟩

/-- Claim C3 as amended: for every arithmetic expression tree over
integer literals using only + - * /, the evaluator computes int64
arithmetic — two's-complement wrap-around with truncating division and a
divide-by-zero fault — which agrees with standard integer arithmetic
whenever every intermediate result fits in int64 and no division by zero
occurs; the parser gives * and / the PRODUCT precedence above the SUM
precedence of + and - with PREFIX above both, parses left-to-right
associatively, and in particular `5 + 5 * 2` parses as 5 + (5 * 2) and
evaluates to Integer 15, while `10 - 2 - 3` parses as (10 - 2) - 3 and
evaluates to Integer 5. -/
theorem C3_arithmetic_amended :
    (∀ (t : ArithTree) (fuel : Nat) (env : Nat) (st : Store),
      arithSize t < fuel →
      evalExpr fuel (arithToExpr t) env st = denoteRes (denoteWrap t) st) ∧
    (∀ t : ArithTree, stdInRange t → denoteWrap t = denoteStd t) ∧
    parseJaba ("5 + 5 * 2") =
      ([.ExpressionStatement (some (.InfixExpression "+"
        (some (.IntegerLiteral 5))
        (some (.InfixExpression "*" (some (.IntegerLiteral 5))
          (some (.IntegerLiteral 2))))))], []) ∧
    resultValue (evalProgramJaba 10
      [.ExpressionStatement (some (.InfixExpression "+"
        (some (.IntegerLiteral 5))
        (some (.InfixExpression "*" (some (.IntegerLiteral 5))
          (some (.IntegerLiteral 2))))))]) = some (some (.Integer 15)) ∧
    parseJaba ("10 - 2 - 3") =
      ([.ExpressionStatement (some (.InfixExpression "-"
        (some (.InfixExpression "-" (some (.IntegerLiteral 10))
          (some (.IntegerLiteral 2))))
        (some (.IntegerLiteral 3))))], []) ∧
    resultValue (evalProgramJaba 10
      [.ExpressionStatement (some (.InfixExpression "-"
        (some (.InfixExpression "-" (some (.IntegerLiteral 10))
          (some (.IntegerLiteral 2))))
        (some (.IntegerLiteral 3))))]) = some (some (.Integer 5)) ∧
    precedences (.ASTERISK) = some PRODUCT ∧
    precedences (.SLASH) = some PRODUCT ∧
    precedences (.PLUS) = some SUM ∧
    precedences (.MINUS) = some SUM ∧
    LOWEST < SUM ∧ SUM < PRODUCT ∧ PRODUCT < PREFIX := by
  refine ⟨?_, denoteWrap_eq_denoteStd, rfl, rfl, rfl, rfl, rfl, rfl, rfl,
    rfl, by decide, by decide, by decide⟩
  intro t fuel env st h
  unfold evalExpr
  rw [run_arith t fuel env st h]
  cases denoteWrap t <;> rfl

/-- Witness for C3 at a concrete input: the tree 5 + 7. -/
theorem C3_arithmetic_witness :
    evalExpr 4 (arithToExpr (.node (.add) (.lit 5) (.lit 7))) 0 [⟨[], none⟩] =
      denoteRes (denoteWrap (.node (.add) (.lit 5) (.lit 7))) [⟨[], none⟩] :=
  C3_arithmetic_amended.1 (.node (.add) (.lit 5) (.lit 7)) 4 0 [⟨[], none⟩]
    (by decide)

end Jaba
